import Mathlib

/-!
PubNub Go client: sequence generator, grant request and push-provision listing

A shallow embedding of `pubnub.go`, `grant_request.go` and
`list_push_provisions_request.go`.

* Go `int` is the 64-bit signed machine integer: values are `Int`, and the
  increment of the sequence loop wraps through `wrapInt64`.
* The unbuffered channel of the sequence manager has one sender, so the values
  received from it are, in order, the values the loop sends: the stream is the
  function `sent maxSequence k` (the value of the k-th send, k counted from 0).
* Pointers that the code dereferences without a nil check (`o.pubnub`,
  `pn.Config`) are modelled as plain values; a pointer that may be nil is an
  `Option`.
* Go `json.Unmarshal` is a parameter of the response parsers, and a decoded
  value is a `JSONValue`; a failed one-value type assertion is the outcome
  `GoResult.panic`.
-/

namespace pubnub

/-! ## pubnub.go : the publish sequence manager -/

/-- Constant `MaxSequence` of pubnub.go. -/
def MaxSequence : Int := 65535

/-- Largest value of a Go `int` on a 64-bit platform. -/
def maxInt : Int := 2 ^ 63 - 1

/-- Two's complement wrap-around of a 64-bit signed integer. -/
def wrapInt64 (x : Int) : Int := (x + 2 ^ 63) % 2 ^ 64 - 2 ^ 63

/-- The body of the loop of `runPublishSequenceManager` up to the send:
`if i == maxSequence { i = 1 }`; the result is the value of `i` that
`ch <- i` sends. -/
def loopBody (maxSequence i : Int) : Int :=
  if i = maxSequence then 1 else i

/-- One iteration of `for i := 1; ; i++ { ... }`: from the value of `i` at the
top of the body to the value sent on the channel and the value of `i` after
the post statement `i++`. -/
def seqStep (maxSequence i : Int) : Int × Int :=
  let v := loopBody maxSequence i
  (v, wrapInt64 (v + 1))

/-- Value of the loop variable `i` at the top of the k-th iteration
(`i := 1` initially). -/
def seqState (maxSequence : Int) : Nat → Int
  | 0 => 1
  | k + 1 => (seqStep maxSequence (seqState maxSequence k)).2

/-- The value sent on the channel by the k-th iteration (k counted from 0) of
`runPublishSequenceManager maxSequence ch`. -/
def sent (maxSequence : Int) (k : Nat) : Int :=
  (seqStep maxSequence (seqState maxSequence k)).1

/-- The first `n` values sent on the channel, in order. -/
def firstSent (maxSequence : Int) (n : Nat) : List Int :=
  (List.range n).map (sent maxSequence)

/-! ## Go standard library: strconv, strings, net/url -/

/-- The two sentinel errors a `*strconv.NumError` can wrap here. -/
inductive NumErrKind
  | ErrSyntax
  | ErrRange
  deriving DecidableEq, Repr

/-- Go `strconv.NumError`: the failing function, the input and the cause. -/
structure NumError where
  Func : String
  Num : String
  Err : NumErrKind
  deriving DecidableEq, Repr

/-- Largest `uint64`. -/
def maxUint64 : Nat := 2 ^ 64 - 1

/-- Go `strconv.syntaxError`. -/
def syntaxError (fn str : String) : NumError := ⟨fn, str, .ErrSyntax⟩

/-- Go `strconv.rangeError`. -/
def rangeError (fn str : String) : NumError := ⟨fn, str, .ErrRange⟩

/-- The digit loop of Go `strconv.ParseUint` for base 10 and bitSize 64, on
the remaining characters and the accumulator `n` (a `uint64`). A character
outside `0`..`9` is a syntax error (a letter is a digit of value at least 10,
which base 10 rejects); `n >= cutoff` or a wrapped addition is a range error
returning the largest `uint64`. -/
def parseUintLoop (s0 : String) : List Char → Nat → Nat × Option NumError
  | [], n => (n, none)
  | c :: cs, n =>
    if 48 ≤ c.toNat ∧ c.toNat ≤ 57 then
      let d := c.toNat - 48
      if n ≥ maxUint64 / 10 + 1 then
        (maxUint64, some (rangeError "ParseUint" s0))
      else
        let n10 := (n * 10) % 2 ^ 64
        let n1 := (n10 + d) % 2 ^ 64
        if n1 < n10 ∨ n1 > maxUint64 then
          (maxUint64, some (rangeError "ParseUint" s0))
        else parseUintLoop s0 cs n1
    else (0, some (syntaxError "ParseUint" s0))

/-- Go `strconv.ParseUint(s, 10, 64)`: the value and the error (nil is
`none`). -/
def ParseUint (s : String) : Nat × Option NumError :=
  if s = "" then (0, some (syntaxError "ParseUint" s))
  else parseUintLoop s s.toList 0

/-- Go `strconv.ParseInt(s, 10, 64)`: picks off a leading sign, converts the
rest with `ParseUint`, rewrites a syntax error to name `ParseInt` and the
whole input, and checks the range against `1 << 63`. -/
def ParseInt (s : String) : Int × Option NumError :=
  if s = "" then (0, some (syntaxError "ParseInt" s))
  else
    let s0 := s
    let neg : Bool := s.toList.head? = some '-'
    let s1 :=
      if s.toList.head? = some '+' then String.mk s.toList.tail
      else if s.toList.head? = some '-' then String.mk s.toList.tail
      else s
    let r := ParseUint s1
    let un := r.1
    match r.2 with
    | some e =>
      if e.Err ≠ .ErrRange then (0, some ⟨"ParseInt", s0, e.Err⟩)
      else if neg = false ∧ un ≥ 2 ^ 63 then ((2 : Int) ^ 63 - 1, some (rangeError "ParseInt" s0))
      else if neg = true ∧ un > 2 ^ 63 then (-(2 : Int) ^ 63, some (rangeError "ParseInt" s0))
      else (if neg then -(un : Int) else (un : Int), none)
    | none =>
      if neg = false ∧ un ≥ 2 ^ 63 then ((2 : Int) ^ 63 - 1, some (rangeError "ParseInt" s0))
      else if neg = true ∧ un > 2 ^ 63 then (-(2 : Int) ^ 63, some (rangeError "ParseInt" s0))
      else (if neg then -(un : Int) else (un : Int), none)

/-- Go `strconv.Itoa`: the decimal rendering of an integer. -/
def Itoa (n : Int) : String :=
  if n < 0 then "-" ++ Nat.repr n.natAbs else Nat.repr n.natAbs

/-- Go `strings.Join`. -/
def Join (elems : List String) (sep : String) : String :=
  sep.intercalate elems

/-- Go `url.Values`, a `map[string][]string`: each key has no entry (`none`)
or a list of values. -/
abbrev Values := String → Option (List String)

/-- The empty map `url.Values{}`. -/
def Values.empty : Values := fun _ => none

/-- Go `url.Values.Set`: replaces the values of `key` by the single
`value`. -/
def Values.Set (q : Values) (key value : String) : Values :=
  fun k => if k = key then some [value] else q k

/-- A sequence of bytes (Go `[]byte`). -/
abbrev Bytes := List Nat

/-- The bytes of the UTF-8 encoding of a character. -/
def utf8Bytes (c : Char) : List Nat :=
  let v := c.toNat
  if v < 0x80 then [v]
  else if v < 0x800 then [0xC0 + v / 64, 0x80 + v % 64]
  else if v < 0x10000 then [0xE0 + v / 4096, 0x80 + (v / 64) % 64, 0x80 + v % 64]
  else [0xF0 + v / 262144, 0x80 + (v / 4096) % 64, 0x80 + (v / 64) % 64, 0x80 + v % 64]

/-- Go `[]byte(s)` on a list of characters. -/
def charsBytes : List Char → Bytes
  | [] => []
  | c :: cs => utf8Bytes c ++ charsBytes cs

/-- Go `[]byte(s)`: the bytes of a string. -/
def stringBytes (s : String) : Bytes := charsBytes s.toList

/-- The error of Go `json.Unmarshal` on an input that is not valid JSON
(`*json.SyntaxError`): its message and the offset reached. -/
structure UnmarshalError where
  msg : String
  Offset : Int
  deriving DecidableEq, Repr

/-- What Go `json.Unmarshal` stores into an `interface{}`: nil, `bool`,
`float64`, `string`, `[]interface{}` or `map[string]interface{}`. A number is
kept as the rational it denotes; an object lists its entries in the order in
which `range` visits them. -/
inductive JSONValue
  | null
  | bool (b : Bool)
  | number (q : Rat)
  | string (s : String)
  | array (xs : List JSONValue)
  | object (kvs : List (String × JSONValue))

/-- A decoder in the role of Go `json.Unmarshal(jsonBytes, &value)` with
`value` an `interface{}`: it fails exactly on the inputs that are not valid
JSON. The functions below take the decoder as a parameter. -/
abbrev Decoder := Bytes → Except UnmarshalError JSONValue

/-- The type assertion `v.(map[string]interface{})` in its two-value form;
`none` is a failed assertion. -/
def JSONValue.asObject? : JSONValue → Option (List (String × JSONValue))
  | .object kvs => some kvs
  | _ => none

/-- The type assertion `v.([]interface{})` in its two-value form. -/
def JSONValue.asArray? : JSONValue → Option (List JSONValue)
  | .array xs => some xs
  | _ => none

/-- The type assertion `v.(string)` in its two-value form. -/
def JSONValue.asString? : JSONValue → Option String
  | .string s => some s
  | _ => none

/-- The type assertion `v.(int)` in its two-value form: a decoded value never
holds a Go `int` (numbers are `float64`), so the assertion fails on every
value. -/
def JSONValue.asInt? : JSONValue → Option Int
  | _ => none

/-- The comparison `val == "1"` of an `interface{}` with a string constant. -/
def JSONValue.eqString (v : JSONValue) (s : String) : Bool :=
  match v with
  | .string t => t == s
  | _ => false

/-- The map index `m[key]` in its two-value form; `none` is a missing key. A
nil map is the empty list. -/
def mapIndex {α : Type} (m : List (String × α)) (key : String) : Option α :=
  (m.find? (fun e => e.1 == key)).map (fun e => e.2)

/-- The map assignment `m[key] = value`. -/
def mapAssign {α : Type} (m : List (String × α)) (key : String) (value : α) :
    List (String × α) :=
  m.filter (fun e => !(e.1 == key)) ++ [(key, value)]

/-- The outcome of a Go function that may panic: a run-time panic or the
returned values. -/
inductive GoResult (α : Type)
  | panic (msg : String)
  | ret (values : α)
  deriving DecidableEq, Repr

/-! ## Errors and configuration -/

/-- The errors that the modelled functions return through Go's `error`
interface: a `pnerr` validation error with its message, the
`*strconv.NumError` of a failed integer parse, or a `pnerr` response-parsing
error with its message, the body it keeps and the error it wraps. -/
inductive PNError
  | validation (msg : String)
  | numError (e : NumError)
  | responseParsing (msg : String) (body : Bytes) (orig : UnmarshalError)
  deriving DecidableEq, Repr

/-- Modelled from the spec: `pnerr.NewResponseParsingError` is defined in a
file that is not available; it wraps the decoding error into a parsing error
that preserves the original bytes, which the caller passes as
`ioutil.NopCloser(bytes.NewBufferString(string(jsonBytes)))`. -/
def NewResponseParsingError (msg : String) (body : Bytes) (orig : UnmarshalError) : PNError :=
  .responseParsing msg body orig

/-- Constructor `pnerr.NewValidationError` of the `pnerr` package. -/
def NewValidationError (msg : String) : PNError := .validation msg

/-- The variable `ErrMissingPubKey` of pubnub.go. -/
def ErrMissingPubKey : PNError := NewValidationError "pubnub: Missing Publish Key"

/-- The variable `ErrMissingSubKey` of pubnub.go. -/
def ErrMissingSubKey : PNError := NewValidationError "pubnub: Missing Subscribe Key"

/-- Modelled from the spec: `ErrMissingSecretKey` is declared in a file that is not available;
it is the validation error naming the missing secret key, built like its two
siblings of pubnub.go. -/
def ErrMissingSecretKey : PNError := NewValidationError "pubnub: Missing Secret Key"

/-- Modelled from the spec: the `Config` type is declared in a file that is not available; these
are the fields that the available code reads (account keys, the client
instance identifier and the timeouts). -/
structure Config where
  PublishKey : String := ""
  SubscribeKey : String := ""
  SecretKey : String := ""
  Uuid : String := ""
  ConnectTimeout : Int := 0
  NonSubscribeRequestTimeout : Int := 0
  SubscribeRequestTimeout : Int := 0
  deriving DecidableEq, Repr

/-- Modelled from the spec: the HTTP client type and its constructor
`NewHttpClient` are declared in files that are not available; a client is
described by the connect timeout and the request timeout it works with. -/
structure HttpClient where
  connectTimeout : Int
  requestTimeout : Int
  deriving DecidableEq, Repr

/-- Modelled from the spec: `NewHttpClient`, defined in a file that is not
available, builds a client from a connect timeout and a request timeout. -/
def NewHttpClient (connectTimeout requestTimeout : Int) : HttpClient :=
  { connectTimeout := connectTimeout, requestTimeout := requestTimeout }

/-- The `PubNub` struct of pubnub.go: its configuration and the two HTTP
clients, `none` being the nil pointer (the sequence channel is the stream
`sent`). -/
structure PubNub where
  Config : Config
  client : Option HttpClient := none
  subscribeClient : Option HttpClient := none
  deriving DecidableEq, Repr

/-- The method `PubNub.SetClient`: the state after `pn.client = c`. -/
def PubNub.SetClient (pn : PubNub) (c : Option HttpClient) : PubNub :=
  { pn with client := c }

/-- The method `PubNub.GetClient`: the returned client and the state after the
call. -/
def PubNub.GetClient (pn : PubNub) : Option HttpClient × PubNub :=
  let pn1 :=
    if pn.client = none then
      { pn with client := some (NewHttpClient pn.Config.ConnectTimeout
          pn.Config.NonSubscribeRequestTimeout) }
    else pn
  (pn1.client, pn1)

/-- The method `PubNub.GetSubscribeClient`: the returned client and the state
after the call. -/
def PubNub.GetSubscribeClient (pn : PubNub) : Option HttpClient × PubNub :=
  let pn1 :=
    if pn.subscribeClient = none then
      { pn with subscribeClient := some (NewHttpClient pn.Config.ConnectTimeout
          pn.Config.SubscribeRequestTimeout) }
    else pn
  (pn1.subscribeClient, pn1)

/-- Modelled from the spec: `defaultQuery` is defined in a file that is not available; per the
spec every query carries the per-request unique id, which is the `uuid`
parameter set from the configuration. -/
def defaultQuery (uuid : String) : Values :=
  Values.empty.Set "uuid" uuid

/-! ## grant_request.go -/

/-- The constant `GRANT_PATH` without its `%s` verb. -/
def GRANT_PATH : String := "/v1/auth/grant/sub-key/"

/-- Modelled from the spec: the `Context` type is declared in a file that is
not available; it is the optional cancellation signal that a caller supplies,
told apart by a tag. -/
structure Context where
  tag : Nat
  deriving DecidableEq, Repr

/-- The `GrantOpts` struct; `ctx` is `none` for the nil context. -/
structure GrantOpts where
  pubnub : PubNub
  ctx : Option Context := none
  AuthKeys : List String := []
  Channels : List String := []
  Groups : List String := []
  Read : Bool := false
  Write : Bool := false
  Manage : Bool := false
  Ttl : String := ""
  deriving DecidableEq, Repr

/-- The method `GrantOpts.config`. -/
def GrantOpts.config (o : GrantOpts) : Config := o.pubnub.Config

/-- The method `GrantOpts.validate`; `none` is the nil error. -/
def GrantOpts.validate (o : GrantOpts) : Option PNError :=
  if o.config.PublishKey = "" then some ErrMissingPubKey
  else if o.config.SubscribeKey = "" then some ErrMissingSubKey
  else if o.config.SecretKey = "" then some ErrMissingSecretKey
  else none

/-- The method `GrantOpts.buildPath`:
`fmt.Sprintf(GRANT_PATH, o.pubnub.Config.SubscribeKey), nil`. -/
def GrantOpts.buildPath (o : GrantOpts) : String × Option PNError :=
  (GRANT_PATH ++ o.pubnub.Config.SubscribeKey, none)

/-- The method `GrantOpts.buildQuery`; `now` is the reading `time.Now().Unix()`
of the clock at the call. The result is the returned query and error. -/
def GrantOpts.buildQuery (o : GrantOpts) (now : Int) : Values × Option PNError :=
  let q := defaultQuery o.pubnub.Config.Uuid
  let q := if o.Read then q.Set "r" "1" else q.Set "r" "0"
  let q := if o.Write then q.Set "w" "1" else q.Set "w" "0"
  let q := if o.Manage then q.Set "m" "1" else q.Set "m" "0"
  let q := if o.AuthKeys.length > 0 then q.Set "auth" (Join o.AuthKeys ",") else q
  let q := if o.Channels.length > 0 then q.Set "channel" (Join o.Channels ",") else q
  let q := if o.Groups.length > 0 then q.Set "channel-group" (Join o.Groups ",") else q
  if o.Ttl ≠ "" then
    match ParseInt o.Ttl with
    | (_, some err) => (Values.empty, some (.numError err))
    | (ttl, none) =>
      let q := if ttl ≥ -1 then q.Set "ttl" o.Ttl else q
      (q.Set "timestamp" (Itoa now), none)
  else
    (q.Set "timestamp" (Itoa now), none)

/-- The `PNAccessManagerKeyData` struct. -/
structure PNAccessManagerKeyData where
  ReadEnabled : Bool := false
  WriteEnabled : Bool := false
  ManageEnabled : Bool := false
  deriving DecidableEq, Repr

/-- The `GrantResponse` struct; a nil map is the empty list. -/
structure GrantResponse where
  Level : String := ""
  SubscribeKey : String := ""
  Ttl : Int := 0
  Channels : List (String × List (String × PNAccessManagerKeyData)) := []
  ChannelGroups : List (String × List (String × PNAccessManagerKeyData)) := []
  deriving DecidableEq, Repr

/-- The variable `emptyGrantResponse`, a nil `*GrantResponse`. -/
def emptyGrantResponse : Option GrantResponse := none

/-- The body of the loop `for authKeyName, value := range auths` of
`newGrantResponse`, from the state (`grantResp`, `constructedAuthKey`) before
the iteration to the state after it. -/
def grantAuthStep
    (state : GrantResponse × List (String × PNAccessManagerKeyData))
    (entry : String × JSONValue) :
    GrantResponse × List (String × PNAccessManagerKeyData) :=
  let grantResp := state.1
  let constructedAuthKey := state.2
  let authKeyName := entry.1
  let value := entry.2
  let auth := value.asObject?.getD []
  let resp : PNAccessManagerKeyData := {}
  let resp :=
    match mapIndex auth "r" with
    | some val => if val.eqString "1" then { resp with ReadEnabled := true }
                  else { resp with ReadEnabled := false }
    | none => resp
  let resp :=
    match mapIndex auth "w" with
    | some val => if val.eqString "1" then { resp with WriteEnabled := true }
                  else { resp with WriteEnabled := false }
    | none => resp
  let resp :=
    match mapIndex auth "m" with
    | some val => if val.eqString "1" then { resp with ManageEnabled := true }
                  else { resp with ManageEnabled := false }
    | none => resp
  let grantResp :=
    match mapIndex auth "ttl" with
    | some val =>
      let parsedVal := val.asInt?.getD 0
      { grantResp with Ttl := parsedVal }
    | none => grantResp
  (grantResp, mapAssign constructedAuthKey authKeyName resp)

/-- The loop `for authKeyName, value := range auths` of `newGrantResponse`. -/
def grantAuthLoop (auths : List (String × JSONValue))
    (state : GrantResponse × List (String × PNAccessManagerKeyData)) :
    GrantResponse × List (String × PNAccessManagerKeyData) :=
  auths.foldl grantAuthStep state

/-- The function `newGrantResponse`, with the decoder as a parameter. The
one-value assertion `payload.(map[string]interface{})` panics when it fails;
the function returns the variable `resp` of its first line, while the loop
works on `grantResp` and `constructedAuthKey`. -/
def newGrantResponse (Unmarshal : Decoder) (jsonBytes : Bytes) :
    GoResult (Option GrantResponse × Option PNError) :=
  let resp : GrantResponse := {}
  match Unmarshal jsonBytes with
  | .error err =>
    let e := NewResponseParsingError "Error unmarshalling response" jsonBytes err
    .ret (emptyGrantResponse, some e)
  | .ok value =>
    let grantResp : GrantResponse := {}
    let grantData := value.asObject?.getD []
    let payload := mapIndex grantData "payload"
    match payload.bind JSONValue.asObject? with
    | none => .panic "interface conversion: interface {} is not map[string]interface {}"
    | some parsedPayload =>
      match mapIndex parsedPayload "channel" with
      | some _ =>
        let auths := ((mapIndex parsedPayload "auths").bind JSONValue.asObject?).getD []
        let _state := grantAuthLoop auths (grantResp, [])
        .ret (some resp, none)
      | none => .ret (some resp, none)

/-- The function `GrantRequest`; `executeRequest`, defined in a file that is
not available, is a parameter giving the raw body and the error. -/
def GrantRequest (Unmarshal : Decoder) (executeRequest : GrantOpts → Bytes × Option PNError)
    (pn : PubNub) (opts : GrantOpts) : GoResult (Option GrantResponse × Option PNError) :=
  let opts := { opts with pubnub := pn }
  let r := executeRequest opts
  let rawJson := r.1
  let err := r.2
  if err ≠ none then .ret (emptyGrantResponse, err)
  else newGrantResponse Unmarshal rawJson

/-- The function `GrantRequestWithContext`; `executeRequest` is a parameter as
in `GrantRequest`. -/
def GrantRequestWithContext (executeRequest : GrantOpts → Bytes × Option PNError)
    (ctx : Option Context) (pn : PubNub) (opts : GrantOpts) :
    Option GrantResponse × Option PNError :=
  let opts := { opts with pubnub := pn }
  let opts := { opts with ctx := ctx }
  let r := executeRequest opts
  let err := r.2
  if err ≠ none then (emptyGrantResponse, err)
  else (emptyGrantResponse, none)

/-! ## list_push_provisions_request.go -/

/-- Modelled from the spec: the `PNPushType` enumeration is declared in a
file that is not available; a push type is an integer tag as Go enumerations are. -/
structure PNPushType where
  tag : Int
  deriving DecidableEq, Repr

/-- Modelled from the spec: the constant `PNPushTypeNone`, the "none" push
type, is declared in a file that is not available; only its identity matters below. -/
def PNPushTypeNone : PNPushType := ⟨1⟩

/-- Modelled from the spec: message constant `StrMissingSubKey`, declared in
a file that is not available. -/
def StrMissingSubKey : String := "Missing Subscribe Key"

/-- Modelled from the spec: message constant `StrMissingDeviceID`, declared in
a file that is not available. -/
def StrMissingDeviceID : String := "Missing Device ID"

/-- Modelled from the spec: message constant `StrMissingPushType`, declared in
a file that is not available. -/
def StrMissingPushType : String := "Missing Push Type"

/-- The `listPushProvisionsRequestOpts` struct; `Transport` and `ctx` are read
by none of the functions below and are left out. -/
structure listPushProvisionsRequestOpts where
  pubnub : PubNub
  PushType : PNPushType
  DeviceIDForPush : String := ""
  deriving DecidableEq, Repr

/-- Modelled from the spec: `newValidationError` is defined in a file that is not available; it
builds the validation error that names the missing field through its
message. -/
def newValidationError (_o : listPushProvisionsRequestOpts) (msg : String) : PNError :=
  .validation msg

/-- The method `listPushProvisionsRequestOpts.config`. -/
def listPushProvisionsRequestOpts.config (o : listPushProvisionsRequestOpts) : Config :=
  o.pubnub.Config

/-- The method `listPushProvisionsRequestOpts.validate`; `none` is the nil
error. -/
def listPushProvisionsRequestOpts.validate (o : listPushProvisionsRequestOpts) :
    Option PNError :=
  if o.config.SubscribeKey = "" then some (newValidationError o StrMissingSubKey)
  else if o.DeviceIDForPush = "" then some (newValidationError o StrMissingDeviceID)
  else if o.PushType = PNPushTypeNone then some (newValidationError o StrMissingPushType)
  else none

/-- Modelled from the spec: the `StatusResponse` type is declared in a file
that is not available; it is the status metadata of an execution, here its
HTTP status code. -/
structure StatusResponse where
  StatusCode : Int
  deriving DecidableEq, Repr

/-- The `ListPushProvisionsRequestResponse` struct; a nil slice is the empty
list. -/
structure ListPushProvisionsRequestResponse where
  Channels : List String := []
  deriving DecidableEq, Repr

/-- The variable `emptyListPushProvisionsRequestResponse`, a nil pointer. -/
def emptyListPushProvisionsRequestResponse : Option ListPushProvisionsRequestResponse := none

/-- The loop `for i, v := range parsedValue { a[i] = v.(string) }`: the list
of strings, or `none` when the one-value assertion `v.(string)` panics. -/
def stringsOf : List JSONValue → Option (List String)
  | [] => some []
  | v :: vs =>
    match v.asString? with
    | none => none
    | some str =>
      match stringsOf vs with
      | none => none
      | some rest => some (str :: rest)

/-- The function `newListPushProvisionsRequestResponse`, with the decoder as a
parameter. -/
def newListPushProvisionsRequestResponse (Unmarshal : Decoder) (jsonBytes : Bytes)
    (status : StatusResponse) :
    GoResult (Option ListPushProvisionsRequestResponse × StatusResponse × Option PNError) :=
  let resp : ListPushProvisionsRequestResponse := {}
  match Unmarshal jsonBytes with
  | .error err =>
    let e := NewResponseParsingError "Error unmarshalling response" jsonBytes err
    .ret (emptyListPushProvisionsRequestResponse, status, some e)
  | .ok value =>
    match value.asArray? with
    | some parsedValue =>
      match stringsOf parsedValue with
      | none => .panic "interface conversion: interface {} is not string"
      | some a => .ret (some { resp with Channels := a }, status, none)
    | none => .ret (some resp, status, none)

/-! ## Paths and operation types -/

/-- The bytes that percent-encoding leaves as they are: letters, digits and
`-`, `_`, `.`, `~`. -/
def isUnreservedByte (b : Nat) : Bool :=
  (65 ≤ b && b ≤ 90) || (97 ≤ b && b ≤ 122) || (48 ≤ b && b ≤ 57) ||
    b == 45 || b == 95 || b == 46 || b == 126

/-- An upper-case hexadecimal digit. -/
def hexUpper (n : Nat) : Char :=
  if n < 10 then Char.ofNat (48 + n) else Char.ofNat (55 + n)

/-- Percent-encoding of a sequence of bytes: an unreserved byte stays, every
other byte becomes `%` and its two hexadecimal digits. -/
def escapeBytes : List Nat → List Char
  | [] => []
  | b :: bs =>
    (if isUnreservedByte b then [Char.ofNat b] else ['%', hexUpper (b / 16), hexUpper (b % 16)])
      ++ escapeBytes bs

/-- Percent-encoding of a sequence of characters, through their UTF-8 bytes. -/
def escapeChars : List Char → List Char
  | [] => []
  | c :: cs => escapeBytes (utf8Bytes c) ++ escapeChars cs

/-- Modelled from the spec: `utils.UrlEncode` is defined in a file that is not
available; it is the percent-encoding of an identifier for use in a URL
path. -/
def UrlEncode (s : String) : String := String.mk (escapeChars s.toList)

/-- The constant `listChannelsOfPushPath`, split at its two `%s` verbs. -/
def listChannelsOfPushPath : String × String := ("/v1/push/sub-key/", "/devices/")

/-- The method `listPushProvisionsRequestOpts.buildPath`:
`fmt.Sprintf(listChannelsOfPushPath, o.pubnub.Config.SubscribeKey,
utils.UrlEncode(o.DeviceIDForPush)), nil`. -/
def listPushProvisionsRequestOpts.buildPath (o : listPushProvisionsRequestOpts) :
    String × Option PNError :=
  (listChannelsOfPushPath.1 ++ o.pubnub.Config.SubscribeKey ++ listChannelsOfPushPath.2
    ++ UrlEncode o.DeviceIDForPush, none)

/-- Modelled from the spec: the operation-type enumeration is declared in a
file that is not available; these are the two tags that the available code
names, and `other` stands for the remaining operation kinds. -/
inductive OperationType
  | PNAccessManagerGrant
  | PNRemoveGroupOperation
  | other (tag : Nat)
  deriving DecidableEq, Repr

/-- The method `GrantOpts.operationType`. -/
def GrantOpts.operationType (_o : GrantOpts) : OperationType :=
  OperationType.PNAccessManagerGrant

/-- The method `listPushProvisionsRequestOpts.operationType`. -/
def listPushProvisionsRequestOpts.operationType (_o : listPushProvisionsRequestOpts) :
    OperationType :=
  OperationType.PNRemoveGroupOperation

/-! ## Specification-side definitions -/

/-- A decimal numeral: one or more characters, each a digit `0`..`9`. -/
def isNumeral (cs : List Char) : Bool :=
  !cs.isEmpty && cs.all (fun c => decide (48 ≤ c.toNat ∧ c.toNat ≤ 57))

/-- The number that a list of decimal digits denotes. -/
def decimalValue (cs : List Char) : Nat :=
  cs.foldl (fun n c => n * 10 + (c.toNat - 48)) 0

/-- The string is a valid base-10 signed 64-bit integer: an optional sign
followed by a decimal numeral, denoting a value in `[-2^63, 2^63 - 1]`. -/
def isBase10Int64 (s : String) : Bool :=
  match s.toList with
  | [] => false
  | c :: cs =>
    if c = '-' then isNumeral cs && decide (decimalValue cs ≤ 2 ^ 63)
    else if c = '+' then isNumeral cs && decide (decimalValue cs ≤ 2 ^ 63 - 1)
    else isNumeral (c :: cs) && decide (decimalValue (c :: cs) ≤ 2 ^ 63 - 1)

/-- The integer that a valid base-10 numeral with an optional sign denotes. -/
def base10Value (s : String) : Int :=
  match s.toList with
  | [] => 0
  | c :: cs =>
    if c = '-' then -(decimalValue cs : Int)
    else if c = '+' then (decimalValue cs : Int)
    else (decimalValue (c :: cs) : Int)

/-- The elements of a list joined with "," in their order: the first element,
then each further element after a comma. -/
def commaJoined : List String → String
  | [] => ""
  | [a] => a
  | a :: b :: rest => a ++ "," ++ commaJoined (b :: rest)

/-! ## Concrete inputs -/

/-- A configuration with all three account keys. -/
def demoConfig : Config :=
  { PublishKey := "pub", SubscribeKey := "sub", SecretKey := "sec", Uuid := "u1" }

/-- A grant with only `Read` set. -/
def grantReadOnly : GrantOpts :=
  { pubnub := { Config := demoConfig }, Read := true }

/-- A configuration without a secret key. -/
def noSecretConfig : Config :=
  { PublishKey := "pub", SubscribeKey := "sub", Uuid := "u1" }

/-- A push-provision listing for a device with the given push type. -/
def listPushFor (device : String) (pushType : PNPushType) : listPushProvisionsRequestOpts :=
  { pubnub := { Config := demoConfig }, PushType := pushType, DeviceIDForPush := device }

/-- A grant for two auth keys on one channel and no channel group. -/
def grantTwoKeys : GrantOpts :=
  { pubnub := { Config := demoConfig }, AuthKeys := ["k1", "k2"], Channels := ["ch"] }

/-- A configuration whose subscribe key holds a slash. -/
def slashKeyConfig : Config :=
  { PublishKey := "pub", SubscribeKey := "a/b", SecretKey := "sec", Uuid := "u1" }

/-- A configuration with timeouts, and a fresh `PubNub` on it. -/
def timedPubNub : PubNub :=
  { Config := { PublishKey := "pub", SubscribeKey := "sub", SecretKey := "sec", Uuid := "u1",
                ConnectTimeout := 5, NonSubscribeRequestTimeout := 10,
                SubscribeRequestTimeout := 310 } }

/-- The body `["a","b"]`. -/
def listBody : Bytes := stringBytes "[\"a\",\"b\"]"

/-- The body `[]`. -/
def emptyArrayBody : Bytes := stringBytes "[]"

/-- The body `[1]`. -/
def numberArrayBody : Bytes := stringBytes "[1]"

/-- The body of the object with the one member `"a":1`. -/
def objectBody : Bytes := stringBytes "\x7b\"a\":1\x7d"

/-- The body `nope`, which is not JSON. -/
def notJsonBody : Bytes := stringBytes "nope"

/-- A grant response body: payload with channel "ch" and auths mapping the
auth key "k" to r "1", w "1", m "0" and ttl 5. -/
def grantBody : Bytes :=
  stringBytes ("\x7b\"payload\":\x7b\"channel\":\"ch\",\"auths\":\x7b\"k\":"
    ++ "\x7b\"r\":\"1\",\"w\":\"1\",\"m\":\"0\",\"ttl\":5\x7d\x7d\x7d\x7d")

/-- The auths object of `grantBody`, decoded. -/
def grantAuths : List (String × JSONValue) :=
  [("k", .object [("r", .string "1"), ("w", .string "1"), ("m", .string "0"),
    ("ttl", .number 5)])]

/-- The value that `grantBody` decodes to. -/
def grantValue : JSONValue :=
  .object [("payload", .object [("channel", .string "ch"), ("auths", .object grantAuths)])]

/-- A decoder for the sample bodies: each sample body that is JSON goes to the
value it denotes, `nope` and every other input to a syntax error. -/
def sampleUnmarshal : Decoder := fun b =>
  if b = listBody then .ok (.array [.string "a", .string "b"])
  else if b = emptyArrayBody then .ok (.array [])
  else if b = numberArrayBody then .ok (.array [.number 1])
  else if b = objectBody then .ok (.object [("a", .number 1)])
  else if b = grantBody then .ok grantValue
  else .error { msg := "invalid character", Offset := 1 }

/-- A successful execution status. -/
def statusOK : StatusResponse := { StatusCode := 200 }

/-- An `executeRequest` that succeeds with `grantBody`. -/
def executeGrantOK : GrantOpts → Bytes × Option PNError := fun _ => (grantBody, none)

/-- A grant with the given TTL string. -/
def grantTtl (ttl : String) : GrantOpts :=
  { pubnub := { Config := demoConfig }, Read := true, Ttl := ttl }

/-! ### Helper lemmas on the sequence manager -/

/-- No wrap-around inside the range of a 64-bit signed integer. -/
theorem wrapInt64_of_range (x : Int) (h1 : -(2 ^ 63) ≤ x) (h2 : x ≤ maxInt) :
    wrapInt64 x = x := by
  unfold wrapInt64
  unfold maxInt at h2
  omega

/-- The remainder of a successor: back to 0 or one more. -/
theorem succ_mod_cases (k m : Nat) (hm : 0 < m) :
    (k % m + 1 = m ∧ (k + 1) % m = 0) ∨ (k % m + 1 < m ∧ (k + 1) % m = k % m + 1) := by
  have hlt : k % m < m := Nat.mod_lt k hm
  rcases Nat.lt_or_ge (k % m + 1) m with h | h
  · right
    refine ⟨h, ?_⟩
    rw [Nat.add_mod, Nat.mod_eq_of_lt (a := k % m + 1 % m)]
    · rcases Nat.lt_or_ge 1 m with h1 | h1
      · rw [Nat.mod_eq_of_lt h1]
      · omega
    · rcases Nat.lt_or_ge 1 m with h1 | h1
      · rw [Nat.mod_eq_of_lt h1]; exact h
      · omega
  · left
    have he : k % m + 1 = m := by omega
    refine ⟨he, ?_⟩
    have hk : k + 1 = m * (k / m + 1) := by
      have := Nat.div_add_mod k m
      rw [Nat.mul_add, Nat.mul_one]
      omega
    rw [hk]
    exact Nat.mul_mod_right m _

/-- Closed form of the stream: the k-th value sent is `k mod (maxSequence - 1)`
plus one. -/
theorem sent_closed (maxSequence : Int) (h2 : 2 ≤ maxSequence) (hmax : maxSequence ≤ maxInt)
    (k : Nat) :
    sent maxSequence k = ((k % (maxSequence - 1).toNat : Nat) : Int) + 1 := by
  have hm : 0 < (maxSequence - 1).toNat := by omega
  have hcast : (((maxSequence - 1).toNat : Nat) : Int) = maxSequence - 1 := by omega
  induction k with
  | zero =>
    simp only [sent, seqStep, seqState, loopBody, Nat.zero_mod]
    split <;> simp
  | succ k ih =>
    have hlt : k % (maxSequence - 1).toNat < (maxSequence - 1).toNat := Nat.mod_lt k hm
    have hstate : seqState maxSequence (k + 1) = wrapInt64 (sent maxSequence k + 1) := rfl
    have hsent : sent maxSequence (k + 1) = loopBody maxSequence (seqState maxSequence (k + 1)) :=
      rfl
    rw [hsent, hstate, ih]
    have hw : wrapInt64 (((k % (maxSequence - 1).toNat : Nat) : Int) + 1 + 1)
        = ((k % (maxSequence - 1).toNat : Nat) : Int) + 1 + 1 := by
      apply wrapInt64_of_range
      · omega
      · omega
    rw [hw]
    unfold loopBody
    rcases succ_mod_cases k (maxSequence - 1).toNat hm with ⟨ha, hb⟩ | ⟨ha, hb⟩
    · rw [hb, if_pos (by omega)]
      simp
    · rw [hb, if_neg (by omega)]
      push_cast
      ring

/-! ### Helper lemmas on strconv and on the grant query -/

/-- A string is empty exactly when it has no character. -/
theorem str_eq_empty_iff (s : String) : s = "" ↔ s.toList = [] := by
  constructor
  · intro h; subst h; rfl
  · intro h
    cases s with
    | mk data =>
      have : data = [] := h
      subst this
      rfl

/-- The accumulator of the digit loop never decreases. -/
theorem le_foldl_digits (cs : List Char) (n : Nat) :
    n ≤ cs.foldl (fun n c => n * 10 + (c.toNat - 48)) n := by
  induction cs generalizing n with
  | nil => exact Nat.le_refl n
  | cons c cs ih =>
    simp only [List.foldl_cons]
    exact Nat.le_trans (by omega) (ih (n * 10 + (c.toNat - 48)))

/-- The digit loop succeeds exactly on digits whose value fits a `uint64`; a
range error returns the largest `uint64`. -/
theorem parseUintLoop_spec (s0 : String) (cs : List Char) (n : Nat) (hn : n < 2 ^ 64) :
    ((cs.all (fun c => decide (48 ≤ c.toNat ∧ c.toNat ≤ 57)) = true ∧
        cs.foldl (fun n c => n * 10 + (c.toNat - 48)) n < 2 ^ 64) →
      parseUintLoop s0 cs n = (cs.foldl (fun n c => n * 10 + (c.toNat - 48)) n, none)) ∧
    (¬ (cs.all (fun c => decide (48 ≤ c.toNat ∧ c.toNat ≤ 57)) = true ∧
        cs.foldl (fun n c => n * 10 + (c.toNat - 48)) n < 2 ^ 64) →
      ∃ e, (parseUintLoop s0 cs n).2 = some e ∧
        (e.Err = .ErrRange → (parseUintLoop s0 cs n).1 = maxUint64)) := by
  induction cs generalizing n with
  | nil =>
    constructor
    · intro _; rfl
    · intro h; exact absurd ⟨by simp, by simpa using hn⟩ h
  | cons c cs ih =>
    simp only [List.all_cons, List.foldl_cons, Bool.and_eq_true, decide_eq_true_eq]
    by_cases hd : 48 ≤ c.toNat ∧ c.toNat ≤ 57
    · have hmono := le_foldl_digits cs (n * 10 + (c.toNat - 48))
      by_cases hcut : n ≥ maxUint64 / 10 + 1
      · have hbig : ¬ (cs.foldl (fun n c => n * 10 + (c.toNat - 48)) (n * 10 + (c.toNat - 48))
            < 2 ^ 64) := by
          unfold maxUint64 at hcut
          omega
        constructor
        · intro h; exact absurd h.2 hbig
        · intro _
          refine ⟨rangeError "ParseUint" s0, ?_, ?_⟩
          · simp only [parseUintLoop, if_pos hd, if_pos hcut]
          · intro _
            simp only [parseUintLoop, if_pos hd, if_pos hcut]
      · have hn10 : (n * 10) % 2 ^ 64 = n * 10 := by
          apply Nat.mod_eq_of_lt
          unfold maxUint64 at hcut
          omega
        by_cases hov : n * 10 + (c.toNat - 48) < 2 ^ 64
        · have hn1 : (n * 10 + (c.toNat - 48)) % 2 ^ 64 = n * 10 + (c.toNat - 48) :=
            Nat.mod_eq_of_lt hov
          have hstep : parseUintLoop s0 (c :: cs) n
              = parseUintLoop s0 cs (n * 10 + (c.toNat - 48)) := by
            have hno : ¬ (n * 10 + (c.toNat - 48) < n * 10 ∨
                n * 10 + (c.toNat - 48) > maxUint64) := by
              unfold maxUint64
              omega
            simp only [parseUintLoop, if_pos hd, if_neg hcut, hn10, hn1, if_neg hno]
          rw [hstep]
          have := ih (n * 10 + (c.toNat - 48)) hov
          constructor
          · intro h; exact this.1 ⟨h.1.2, h.2⟩
          · intro h; exact this.2 (fun h' => h ⟨⟨hd, h'.1⟩, h'.2⟩)
        · have hwrap : (n * 10 + (c.toNat - 48)) % 2 ^ 64 < n * 10 := by
            unfold maxUint64 at hcut
            omega
          have hres : parseUintLoop s0 (c :: cs) n
              = (maxUint64, some (rangeError "ParseUint" s0)) := by
            simp only [parseUintLoop, if_pos hd, if_neg hcut, hn10, if_pos (Or.inl hwrap)]
          rw [hres]
          constructor
          · intro h; exact absurd (Nat.lt_of_le_of_lt hmono h.2) hov
          · intro _; exact ⟨_, rfl, fun _ => rfl⟩
    · constructor
      · intro h; exact absurd h.1.1 hd
      · intro _
        refine ⟨syntaxError "ParseUint" s0, ?_, ?_⟩
        · simp only [parseUintLoop, if_neg hd]
        · intro h; simp [syntaxError] at h

/-- `ParseUint` succeeds exactly on the numerals whose value fits a `uint64`. -/
theorem ParseUint_spec (cs : List Char) :
    (isNumeral cs = true ∧ decimalValue cs < 2 ^ 64 →
      ParseUint (String.mk cs) = (decimalValue cs, none)) ∧
    (¬ (isNumeral cs = true ∧ decimalValue cs < 2 ^ 64) →
      ∃ e, (ParseUint (String.mk cs)).2 = some e ∧
        (e.Err = .ErrRange → (ParseUint (String.mk cs)).1 = maxUint64)) := by
  cases cs with
  | nil =>
    constructor
    · intro h; simp [isNumeral] at h
    · intro _
      refine ⟨syntaxError "ParseUint" "", rfl, ?_⟩
      intro h; simp [syntaxError] at h
  | cons c cs =>
    have hne : ¬ (String.mk (c :: cs) = "") := by
      rw [str_eq_empty_iff]; simp
    have hU : ParseUint (String.mk (c :: cs))
        = parseUintLoop (String.mk (c :: cs)) (c :: cs) 0 := by
      simp only [ParseUint, if_neg hne]
      rfl
    have hnum : isNumeral (c :: cs)
        = (c :: cs).all (fun c => decide (48 ≤ c.toNat ∧ c.toNat ≤ 57)) := by
      simp [isNumeral]
    rw [hU, hnum]
    exact parseUintLoop_spec (String.mk (c :: cs)) (c :: cs) 0 (by decide)


/-- `ParseInt` on a non-empty string, by its first character. -/
theorem ParseInt_cons (c : Char) (cs : List Char) :
    ParseInt (String.mk (c :: cs)) =
      (let s0 := String.mk (c :: cs)
       let neg : Bool := decide (c = '-')
       let r := ParseUint (if c = '+' then String.mk cs else if c = '-' then String.mk cs else s0)
       match r.2 with
       | some e =>
         if e.Err ≠ .ErrRange then (0, some ⟨"ParseInt", s0, e.Err⟩)
         else if neg = false ∧ r.1 ≥ 2 ^ 63 then
           ((2 : Int) ^ 63 - 1, some (rangeError "ParseInt" s0))
         else if neg = true ∧ r.1 > 2 ^ 63 then
           (-(2 : Int) ^ 63, some (rangeError "ParseInt" s0))
         else (if neg then -(r.1 : Int) else (r.1 : Int), none)
       | none =>
         if neg = false ∧ r.1 ≥ 2 ^ 63 then
           ((2 : Int) ^ 63 - 1, some (rangeError "ParseInt" s0))
         else if neg = true ∧ r.1 > 2 ^ 63 then
           (-(2 : Int) ^ 63, some (rangeError "ParseInt" s0))
         else (if neg then -(r.1 : Int) else (r.1 : Int), none)) := by
  have hne : ¬ (String.mk (c :: cs) = "") := by
    rw [str_eq_empty_iff]; simp
  simp only [ParseInt, if_neg hne, String.toList, List.head?_cons, List.tail_cons,
    Option.some.injEq]

/-- The range check of `ParseInt` after a successful or failed `ParseUint`. -/
theorem ParseInt_of_ParseUint (c : Char) (cs ds : List Char) (neg : Bool) (bound : Nat)
    (hneg : neg = decide (c = '-'))
    (hbound : bound = if neg then 2 ^ 63 else 2 ^ 63 - 1)
    (hs1 : (if c = '+' then String.mk cs else if c = '-' then String.mk cs
      else String.mk (c :: cs)) = String.mk ds) :
    (isNumeral ds = true ∧ decimalValue ds ≤ bound →
      ParseInt (String.mk (c :: cs))
        = (if neg then -(decimalValue ds : Int) else (decimalValue ds : Int), none)) ∧
    (¬ (isNumeral ds = true ∧ decimalValue ds ≤ bound) →
      ∃ e, (ParseInt (String.mk (c :: cs))).2 = some e) := by
  have hU := ParseUint_spec ds
  rw [ParseInt_cons]
  simp only [hs1, ← hneg]
  by_cases hok : isNumeral ds = true ∧ decimalValue ds < 2 ^ 64
  · have hp := hU.1 hok
    rw [hp]
    simp only
    constructor
    · intro h
      have h1 : ¬ (neg = false ∧ decimalValue ds ≥ 2 ^ 63) := by
        intro hh
        rw [hbound, hh.1] at h
        simp at h
        omega
      have h2 : ¬ (neg = true ∧ decimalValue ds > 2 ^ 63) := by
        intro hh
        rw [hbound, hh.1] at h
        simp at h
        omega
      rw [if_neg h1, if_neg h2]
    · intro h
      have hb : ¬ decimalValue ds ≤ bound := fun hh => h ⟨hok.1, hh⟩
      cases neg with
      | false =>
        simp only [Bool.false_eq_true, if_false] at hbound
        have h1 : (false = false ∧ decimalValue ds ≥ 2 ^ 63) := ⟨rfl, by omega⟩
        rw [if_pos h1]
        exact ⟨_, rfl⟩
      | true =>
        simp only [if_true] at hbound
        have h1 : ¬ (true = false ∧ decimalValue ds ≥ 2 ^ 63) := by simp
        have h2 : (true = true ∧ decimalValue ds > 2 ^ 63) := ⟨rfl, by omega⟩
        rw [if_neg h1, if_pos h2]
        exact ⟨_, rfl⟩
  · obtain ⟨e, he, hr⟩ := hU.2 hok
    have hbad : ¬ (isNumeral ds = true ∧ decimalValue ds ≤ bound) := by
      intro hh
      apply hok
      refine ⟨hh.1, ?_⟩
      have : bound ≤ 2 ^ 63 := by
        rw [hbound]; split <;> omega
      omega
    constructor
    · intro h; exact absurd h hbad
    · intro _
      rw [he]
      simp only
      by_cases hk : e.Err ≠ .ErrRange
      · rw [if_pos hk]; exact ⟨_, rfl⟩
      · rw [if_neg hk]
        have hk2 : e.Err = .ErrRange := by
          cases hE : e.Err with
          | ErrSyntax => rw [hE] at hk; simp at hk
          | ErrRange => rfl
        have hv := hr hk2
        rw [hv]
        cases neg with
        | false =>
          have h1 : (false = false ∧ maxUint64 ≥ 2 ^ 63) := ⟨rfl, by decide⟩
          rw [if_pos h1]
          exact ⟨_, rfl⟩
        | true =>
          have h1 : ¬ (true = false ∧ maxUint64 ≥ 2 ^ 63) := by simp
          have h2 : (true = true ∧ maxUint64 > 2 ^ 63) := ⟨rfl, by decide⟩
          rw [if_neg h1, if_pos h2]
          exact ⟨_, rfl⟩

/-- `ParseInt` succeeds exactly on the valid base-10 signed 64-bit integers,
and then returns the value the numeral denotes. -/
theorem ParseInt_spec (s : String) :
    (isBase10Int64 s = true → ParseInt s = (base10Value s, none)) ∧
    (isBase10Int64 s = false → ∃ e, (ParseInt s).2 = some e) := by
  cases s with
  | mk data =>
    cases data with
    | nil =>
      constructor
      · intro h; simp [isBase10Int64] at h
      · intro _; exact ⟨syntaxError "ParseInt" "", rfl⟩
    | cons c cs =>
      by_cases hm : c = '-'
      · subst hm
        have h := ParseInt_of_ParseUint '-' cs cs true (2 ^ 63) (by decide) (by simp)
          (by simp)
        simp only [isBase10Int64, base10Value, String.toList, if_true, Bool.and_eq_true,
          decide_eq_true_eq]
        constructor
        · intro hh; simpa using h.1 hh
        · intro hh; exact h.2 (by simpa using hh)
      · by_cases hp : c = '+'
        · subst hp
          have h := ParseInt_of_ParseUint '+' cs cs false (2 ^ 63 - 1) (by decide) (by simp)
            (by simp)
          simp only [isBase10Int64, base10Value, String.toList, if_neg hm, if_true,
            Bool.and_eq_true, decide_eq_true_eq]
          constructor
          · intro hh; simpa using h.1 hh
          · intro hh; exact h.2 (by simpa using hh)
        · have h := ParseInt_of_ParseUint c cs (c :: cs) false (2 ^ 63 - 1) (by simp [hm])
            (by simp) (by simp [hm, hp])
          simp only [isBase10Int64, base10Value, String.toList, if_neg hm, if_neg hp,
            Bool.and_eq_true, decide_eq_true_eq]
          constructor
          · intro hh; simpa using h.1 hh
          · intro hh; exact h.2 (by simpa using hh)

/-- The error of `buildQuery` is the error of parsing a non-empty `Ttl`. -/
theorem buildQuery_err (o : GrantOpts) (now : Int) :
    (o.buildQuery now).2 =
      if o.Ttl = "" then none else (ParseInt o.Ttl).2.map PNError.numError := by
  unfold GrantOpts.buildQuery
  by_cases ht : o.Ttl = ""
  · simp [ht]
  · rcases hP : ParseInt o.Ttl with ⟨v, _ | e⟩ <;> simp [ht, hP]

/-- A failed `buildQuery` returns the empty query. -/
theorem buildQuery_fail_query (o : GrantOpts) (now : Int)
    (h : (o.buildQuery now).2 ≠ none) : (o.buildQuery now).1 = Values.empty := by
  unfold GrantOpts.buildQuery at h ⊢
  by_cases ht : o.Ttl = ""
  · simp [ht] at h
  · rcases hP : ParseInt o.Ttl with ⟨v, _ | e⟩
    · simp [ht, hP] at h
    · simp [ht, hP]

/-- Lookup after `Values.Set`. -/
theorem Set_apply (q : Values) (key value k : String) :
    (q.Set key value) k = if k = key then some [value] else q k := rfl

/-- Lookup after a conditional `Values.Set`. -/
theorem ite_Set_apply (c : Prop) [Decidable c] (q : Values) (key value k : String) :
    (if c then q.Set key value else q) k = if k = key ∧ c then some [value] else q k := by
  by_cases hc : c <;> simp [hc, Values.Set]

/-- Lookup after setting a boolean flag as "1" or "0". -/
theorem flag_Set_apply (b : Bool) (q : Values) (key k : String) :
    (if b = true then q.Set key "1" else q.Set key "0") k
      = if k = key then some [if b = true then "1" else "0"] else q k := by
  cases b <;> simp [Values.Set]

/-- Every key of the query of a successful `buildQuery`, last write first. -/
theorem buildQuery_lookup (o : GrantOpts) (now : Int)
    (h : (o.buildQuery now).2 = none) (k : String) :
    (o.buildQuery now).1 k =
      if k = "timestamp" then some [Itoa now]
      else if k = "ttl" ∧ o.Ttl ≠ "" ∧ (ParseInt o.Ttl).1 ≥ -1 then some [o.Ttl]
      else if k = "channel-group" ∧ o.Groups.length > 0 then some [Join o.Groups ","]
      else if k = "channel" ∧ o.Channels.length > 0 then some [Join o.Channels ","]
      else if k = "auth" ∧ o.AuthKeys.length > 0 then some [Join o.AuthKeys ","]
      else if k = "m" then some [if o.Manage then "1" else "0"]
      else if k = "w" then some [if o.Write then "1" else "0"]
      else if k = "r" then some [if o.Read then "1" else "0"]
      else if k = "uuid" then some [o.pubnub.Config.Uuid]
      else none := by
  unfold GrantOpts.buildQuery at h ⊢
  by_cases ht : o.Ttl = ""
  · simp only [ht, ne_eq, not_true_eq_false, if_false, false_and, and_false, Set_apply,
      ite_Set_apply, flag_Set_apply, defaultQuery, Values.empty]
  · rcases hP : ParseInt o.Ttl with ⟨v, _ | e⟩
    · simp only [ht, ne_eq, not_false_eq_true, if_true, true_and, Set_apply,
        ite_Set_apply, flag_Set_apply, defaultQuery, Values.empty]
    · simp [ht, hP] at h

/-! ## Claims on the sequence generator -/

/-- C1: for every `maxSequence` at least 2 (and representable as a Go `int`),
every value that `runPublishSequenceManager` sends on the channel lies in
`[1, maxSequence - 1]`; with `MaxSequence = 65535` no sent value is 65535 and
none is below 1. -/
theorem sent_in_range (maxSequence : Int) (h2 : 2 ≤ maxSequence) (hmax : maxSequence ≤ maxInt)
    (k : Nat) :
    (1 ≤ sent maxSequence k ∧ sent maxSequence k ≤ maxSequence - 1) ∧
    (∀ j : Nat, sent MaxSequence j ≠ 65535 ∧ 1 ≤ sent MaxSequence j) := by
  have hm : 0 < (maxSequence - 1).toNat := by omega
  have hlt : k % (maxSequence - 1).toNat < (maxSequence - 1).toNat := Nat.mod_lt k hm
  refine ⟨?_, ?_⟩
  · rw [sent_closed maxSequence h2 hmax k]
    omega
  · intro j
    have hc := sent_closed MaxSequence (by decide) (by decide) j
    have hj : j % (MaxSequence - 1).toNat < (MaxSequence - 1).toNat :=
      Nat.mod_lt j (by decide)
    have hM : (MaxSequence - 1).toNat = 65534 := by decide
    rw [hM] at hc hj
    omega

/-- Witness of C1 at `MaxSequence` and the 65535th send. -/
theorem sent_in_range_witness :
    (2 : Int) ≤ MaxSequence ∧ MaxSequence ≤ maxInt ∧
    (1 ≤ sent MaxSequence 65534 ∧ sent MaxSequence 65534 ≤ MaxSequence - 1) :=
  ⟨by decide, by decide, (sent_in_range MaxSequence (by decide) (by decide) 65534).1⟩

/-- C2: with `MaxSequence = 65535` the k-th value handed out (k from 0) is
`(k mod 65534) + 1`: each value is the previous one plus 1 except that 65534 is
followed by 1, the first 65534 values are 1, 2, ..., 65534 and the 65535th
successive call returns 1. -/
theorem sent_MaxSequence_cycle :
    (∀ k : Nat, sent MaxSequence k = ((k % 65534 : Nat) : Int) + 1) ∧
    (∀ k : Nat, sent MaxSequence (k + 1) =
      if sent MaxSequence k = 65534 then 1 else sent MaxSequence k + 1) ∧
    (∀ k : Nat, k < 65534 → sent MaxSequence k = (k : Int) + 1) ∧
    sent MaxSequence 65534 = 1 := by
  have hM : (MaxSequence - 1).toNat = 65534 := by decide
  have hc : ∀ k : Nat, sent MaxSequence k = ((k % 65534 : Nat) : Int) + 1 := by
    intro k
    have := sent_closed MaxSequence (by decide) (by decide) k
    rw [hM] at this
    exact this
  refine ⟨hc, ?_, ?_, ?_⟩
  · intro k
    rw [hc (k + 1), hc k]
    split <;> omega
  · intro k hk
    rw [hc k]
    omega
  · rw [hc 65534]
    decide

/-- Witness of C2: the first values and the value after 65534. -/
theorem sent_MaxSequence_cycle_witness :
    sent MaxSequence 0 = 1 ∧ sent MaxSequence 1 = 2 ∧ sent MaxSequence 65533 = 65534 ∧
    sent MaxSequence 65534 = 1 :=
  ⟨sent_MaxSequence_cycle.2.2.1 0 (by decide), sent_MaxSequence_cycle.2.2.1 1 (by decide),
   sent_MaxSequence_cycle.2.2.1 65533 (by decide), sent_MaxSequence_cycle.2.2.2⟩

/-- C3: for every `N < 65535` the first `N` values handed out by the sequence
generator that `NewPubNub` starts (`maxSequence = MaxSequence`) are pairwise
distinct. -/
theorem firstSent_nodup (N : Nat) (hN : N < 65535) :
    (firstSent MaxSequence N).Nodup := by
  have hM : (MaxSequence - 1).toNat = 65534 := by decide
  unfold firstSent
  refine (List.nodup_map_iff_inj_on (List.nodup_range N)).2 ?_
  intro i hi j hj hij
  have hi1 : i < N := List.mem_range.1 hi
  have hj1 : j < N := List.mem_range.1 hj
  have hci := sent_closed MaxSequence (by decide) (by decide) i
  have hcj := sent_closed MaxSequence (by decide) (by decide) j
  rw [hM] at hci hcj
  rw [hci, hcj] at hij
  omega

/-- Witness of C3 at the largest admitted `N`. -/
theorem firstSent_nodup_witness :
    65534 < 65535 ∧ (firstSent MaxSequence 65534).Nodup :=
  ⟨by decide, firstSent_nodup 65534 (by decide)⟩

/-- C4, as stated, fails: the sends at positions 0 and 65534 of the stream of
one generator carry the same value 1. -/
theorem sent_repeats :
    ¬ (∀ i j : Nat, i ≠ j → sent MaxSequence i ≠ sent MaxSequence j) := by
  intro h
  apply h 0 65534 (by decide)
  rw [sent_closed MaxSequence (by decide) (by decide) 0,
    sent_closed MaxSequence (by decide) (by decide) 65534]
  decide

/-- C4, amended: two positions of the stream carry the same value exactly when
they are congruent modulo 65534; in particular two distinct positions fewer
than 65534 apart never carry the same value. -/
theorem sent_eq_iff_mod (i j : Nat) :
    (sent MaxSequence i = sent MaxSequence j ↔ i % 65534 = j % 65534) ∧
    (i ≠ j → i < j + 65534 → j < i + 65534 → sent MaxSequence i ≠ sent MaxSequence j) := by
  have hM : (MaxSequence - 1).toNat = 65534 := by decide
  have hci := sent_closed MaxSequence (by decide) (by decide) i
  have hcj := sent_closed MaxSequence (by decide) (by decide) j
  rw [hM] at hci hcj
  rw [hci, hcj]
  constructor
  · omega
  · omega

/-- Witness of the amended C4 at positions 3 and 65536. -/
theorem sent_eq_iff_mod_witness :
    (3 : Nat) ≠ 65536 ∧ 3 < 65536 + 65534 ∧ 65536 < 3 + 65534 ∧
    sent MaxSequence 3 ≠ sent MaxSequence 65536 :=
  ⟨by decide, by decide, by decide,
   (sent_eq_iff_mod 3 65536).2 (by decide) (by decide) (by decide)⟩

/-! ## Claims on the grant request and the push-provision listing -/

/-- C5: whenever `buildQuery` succeeds, the query holds the keys `r`, `w` and
`m`, each with exactly one value, which is "1" if the flag (`Read`, `Write`,
`Manage`) is set and "0" otherwise; none of the three keys is omitted. -/
theorem buildQuery_flags (o : GrantOpts) (now : Int) (h : (o.buildQuery now).2 = none) :
    (o.buildQuery now).1 "r" = some [if o.Read then "1" else "0"] ∧
    (o.buildQuery now).1 "w" = some [if o.Write then "1" else "0"] ∧
    (o.buildQuery now).1 "m" = some [if o.Manage then "1" else "0"] := by
  refine ⟨?_, ?_, ?_⟩ <;> rw [buildQuery_lookup o now h] <;> simp

/-- Witness of C5: only `Read` set gives r=1, w=0, m=0. -/
theorem buildQuery_flags_witness :
    (grantReadOnly.buildQuery 1500000000).2 = none ∧
    (grantReadOnly.buildQuery 1500000000).1 "r" = some ["1"] ∧
    (grantReadOnly.buildQuery 1500000000).1 "w" = some ["0"] ∧
    (grantReadOnly.buildQuery 1500000000).1 "m" = some ["0"] :=
  ⟨rfl, buildQuery_flags grantReadOnly 1500000000 rfl⟩

/-- C6: whenever `buildQuery` succeeds, the query has a `ttl` parameter exactly
when `Ttl` is non-empty and is a valid integer of value at least -1, and the
parameter is then the `Ttl` string verbatim, whatever its size; an empty `Ttl`
and a `Ttl` that parses to an integer below -1 both succeed with no `ttl`
parameter. -/
theorem buildQuery_ttl (o : GrantOpts) (now : Int) :
    ((o.buildQuery now).2 = none →
      (((o.buildQuery now).1 "ttl" ≠ none ↔
          (o.Ttl ≠ "" ∧ isBase10Int64 o.Ttl = true ∧ -1 ≤ base10Value o.Ttl)) ∧
       ((o.buildQuery now).1 "ttl" ≠ none ↔
          (o.Ttl ≠ "" ∧ (ParseInt o.Ttl).2 = none ∧ -1 ≤ (ParseInt o.Ttl).1)) ∧
       ((o.buildQuery now).1 "ttl" ≠ none → (o.buildQuery now).1 "ttl" = some [o.Ttl]))) ∧
    (o.Ttl = "" → (o.buildQuery now).2 = none ∧ (o.buildQuery now).1 "ttl" = none) ∧
    ((ParseInt o.Ttl).2 = none → (ParseInt o.Ttl).1 < -1 →
      (o.buildQuery now).2 = none ∧ (o.buildQuery now).1 "ttl" = none) := by
  have herr := buildQuery_err o now
  refine ⟨?_, ?_, ?_⟩
  · intro h
    have hl := buildQuery_lookup o now h "ttl"
    simp only [show ¬ ("ttl" = "timestamp") by decide, if_false, true_and] at hl
    have hparse : o.Ttl ≠ "" → (ParseInt o.Ttl).2 = none := by
      intro ht
      rw [h, if_neg ht] at herr
      cases hp : (ParseInt o.Ttl).2 with
      | none => rfl
      | some e => rw [hp] at herr; simp at herr
    by_cases hc : o.Ttl ≠ "" ∧ (ParseInt o.Ttl).1 ≥ -1
    · rw [if_pos hc] at hl
      have hp := hparse hc.1
      have hv : isBase10Int64 o.Ttl = true := by
        cases hb : isBase10Int64 o.Ttl with
        | true => rfl
        | false =>
          obtain ⟨e, he⟩ := (ParseInt_spec o.Ttl).2 hb
          rw [hp] at he
          simp at he
      have hval : (ParseInt o.Ttl).1 = base10Value o.Ttl := by
        rw [(ParseInt_spec o.Ttl).1 hv]
      refine ⟨?_, ?_, ?_⟩
      · rw [hl]
        simp only [ne_eq, reduceCtorEq, not_false_eq_true, true_iff]
        exact ⟨hc.1, hv, by rw [← hval]; exact hc.2⟩
      · rw [hl]
        simp only [ne_eq, reduceCtorEq, not_false_eq_true, true_iff]
        exact ⟨hc.1, hp, hc.2⟩
      · intro _; exact hl
    · rw [if_neg hc] at hl
      simp only [show ¬ ("ttl" = "channel-group") by decide, show ¬ ("ttl" = "channel") by decide,
        show ¬ ("ttl" = "auth") by decide, show ¬ ("ttl" = "m") by decide,
        show ¬ ("ttl" = "w") by decide, show ¬ ("ttl" = "r") by decide,
        show ¬ ("ttl" = "uuid") by decide, false_and, if_false] at hl
      refine ⟨?_, ?_, ?_⟩
      · rw [hl]
        simp only [ne_eq, not_true_eq_false, false_iff]
        rintro ⟨h1, h2, h3⟩
        apply hc
        refine ⟨h1, ?_⟩
        rw [(ParseInt_spec o.Ttl).1 h2]
        exact h3
      · rw [hl]
        simp only [ne_eq, not_true_eq_false, false_iff]
        rintro ⟨h1, _, h3⟩
        exact hc ⟨h1, h3⟩
      · intro hne; exact absurd hl hne
  · intro ht
    have h : (o.buildQuery now).2 = none := by rw [herr, if_pos ht]
    refine ⟨h, ?_⟩
    rw [buildQuery_lookup o now h "ttl"]
    simp [ht]
  · intro hp hlt
    have h : (o.buildQuery now).2 = none := by
      rw [herr, hp]; simp
    refine ⟨h, ?_⟩
    rw [buildQuery_lookup o now h "ttl"]
    have : ¬ ((ParseInt o.Ttl).1 ≥ -1) := by omega
    simp [this]

/-- Witness of C6: "1440" is sent as ttl=1440, "-5" parses and is left out,
the empty TTL is left out. -/
theorem buildQuery_ttl_witness :
    ((grantTtl "1440").buildQuery 0).2 = none ∧
    ((grantTtl "1440").buildQuery 0).1 "ttl" = some ["1440"] ∧
    (((grantTtl "-5").buildQuery 0).2 = none ∧ ((grantTtl "-5").buildQuery 0).1 "ttl" = none) ∧
    (((grantTtl "").buildQuery 0).2 = none ∧ ((grantTtl "").buildQuery 0).1 "ttl" = none) :=
  ⟨rfl, ((buildQuery_ttl (grantTtl "1440") 0).1 rfl).2.2 (by decide),
   (buildQuery_ttl (grantTtl "-5") 0).2.2 (by decide) (by decide),
   (buildQuery_ttl (grantTtl "") 0).2.1 rfl⟩

/-- C7: `buildQuery` returns an error exactly when `Ttl` is non-empty and is
not a valid base-10 signed 64-bit integer; the error is then the error of
`strconv.ParseInt` itself and the returned query is empty: it has no key at
all, in particular none of r, w, m, auth, channel, channel-group, ttl and
timestamp. -/
theorem buildQuery_error_iff (o : GrantOpts) (now : Int) :
    ((o.buildQuery now).2 ≠ none ↔ (o.Ttl ≠ "" ∧ isBase10Int64 o.Ttl = false)) ∧
    ((o.buildQuery now).2 ≠ none →
      (∃ e, (ParseInt o.Ttl).2 = some e ∧ (o.buildQuery now).2 = some (PNError.numError e)) ∧
      (o.buildQuery now).1 = Values.empty ∧
      (∀ k : String, (o.buildQuery now).1 k = none)) := by
  have herr := buildQuery_err o now
  have hspec := ParseInt_spec o.Ttl
  constructor
  · constructor
    · intro h
      by_cases ht : o.Ttl = ""
      · rw [herr, if_pos ht] at h; exact absurd rfl h
      · refine ⟨ht, ?_⟩
        cases hb : isBase10Int64 o.Ttl with
        | false => rfl
        | true =>
          rw [herr, if_neg ht, hspec.1 hb] at h
          exact absurd rfl h
    · rintro ⟨ht, hb⟩
      obtain ⟨e, he⟩ := hspec.2 hb
      rw [herr, if_neg ht, he]
      simp
  · intro h
    have ht : ¬ (o.Ttl = "") := by
      intro ht
      rw [herr, if_pos ht] at h
      exact h rfl
    have hq := buildQuery_fail_query o now h
    refine ⟨?_, hq, ?_⟩
    · rw [herr, if_neg ht] at h ⊢
      cases hp : (ParseInt o.Ttl).2 with
      | none => rw [hp] at h; exact absurd rfl h
      | some e => exact ⟨e, rfl, rfl⟩
    · intro k
      rw [hq]
      rfl

/-- Witness of C7: the TTL "abc" fails with the syntax error of `ParseInt` and
an empty query. -/
theorem buildQuery_error_iff_witness :
    ((grantTtl "abc").buildQuery 0).2
      = some (PNError.numError ⟨"ParseInt", "abc", NumErrKind.ErrSyntax⟩) ∧
    ((∃ e, (ParseInt (grantTtl "abc").Ttl).2 = some e ∧
        ((grantTtl "abc").buildQuery 0).2 = some (PNError.numError e)) ∧
      ((grantTtl "abc").buildQuery 0).1 = Values.empty ∧
      (∀ k : String, ((grantTtl "abc").buildQuery 0).1 k = none)) :=
  ⟨rfl, (buildQuery_error_iff (grantTtl "abc") 0).2 (by decide)⟩

/-- C8: `GrantOpts.validate` returns no error exactly when the configured
publish key, subscribe key and secret key are all non-empty; otherwise it
returns the error of the first missing key in the order publish key
(`ErrMissingPubKey`), subscribe key (`ErrMissingSubKey`), secret key
(`ErrMissingSecretKey`); the result depends on no other field. -/
theorem GrantOpts_validate_spec (o : GrantOpts) :
    (o.validate = none ↔
      (o.pubnub.Config.PublishKey ≠ "" ∧ o.pubnub.Config.SubscribeKey ≠ "" ∧
        o.pubnub.Config.SecretKey ≠ "")) ∧
    (o.pubnub.Config.PublishKey = "" → o.validate = some ErrMissingPubKey) ∧
    (o.pubnub.Config.PublishKey ≠ "" → o.pubnub.Config.SubscribeKey = "" →
      o.validate = some ErrMissingSubKey) ∧
    (o.pubnub.Config.PublishKey ≠ "" → o.pubnub.Config.SubscribeKey ≠ "" →
      o.pubnub.Config.SecretKey = "" → o.validate = some ErrMissingSecretKey) ∧
    (∀ o2 : GrantOpts,
      o2.pubnub.Config.PublishKey = o.pubnub.Config.PublishKey →
      o2.pubnub.Config.SubscribeKey = o.pubnub.Config.SubscribeKey →
      o2.pubnub.Config.SecretKey = o.pubnub.Config.SecretKey →
      o2.validate = o.validate) := by
  refine ⟨?_, ?_, ?_, ?_, ?_⟩
  · unfold GrantOpts.validate GrantOpts.config
    by_cases h1 : o.pubnub.Config.PublishKey = "" <;>
    by_cases h2 : o.pubnub.Config.SubscribeKey = "" <;>
    by_cases h3 : o.pubnub.Config.SecretKey = "" <;> simp [h1, h2, h3]
  · intro h1
    simp [GrantOpts.validate, GrantOpts.config, h1]
  · intro h1 h2
    simp [GrantOpts.validate, GrantOpts.config, h1, h2]
  · intro h1 h2 h3
    simp [GrantOpts.validate, GrantOpts.config, h1, h2, h3]
  · intro o2 h1 h2 h3
    simp only [GrantOpts.validate, GrantOpts.config, h1, h2, h3]

/-- Witness of C8: a configuration with publish and subscribe key but no
secret key fails with `ErrMissingSecretKey`. -/
theorem GrantOpts_validate_spec_witness :
    (GrantOpts.validate { pubnub := { Config := noSecretConfig } }) = some ErrMissingSecretKey ∧
    grantReadOnly.validate = none :=
  ⟨(GrantOpts_validate_spec { pubnub := { Config := noSecretConfig } }).2.2.2.1
      (by decide) (by decide) rfl,
   (GrantOpts_validate_spec grantReadOnly).1.2 ⟨by decide, by decide, by decide⟩⟩

/-- C9: `listPushProvisionsRequestOpts.validate` returns no error exactly when
the configured subscribe key is non-empty, `DeviceIDForPush` is non-empty and
`PushType` is not `PNPushTypeNone`; a `PushType` of `PNPushTypeNone` always
fails; on failure the error names the first missing field in the order
subscribe key, device id, push type. -/
theorem listPush_validate_spec (o : listPushProvisionsRequestOpts) :
    (o.validate = none ↔
      (o.pubnub.Config.SubscribeKey ≠ "" ∧ o.DeviceIDForPush ≠ "" ∧
        o.PushType ≠ PNPushTypeNone)) ∧
    (o.PushType = PNPushTypeNone → o.validate ≠ none) ∧
    (o.pubnub.Config.SubscribeKey = "" →
      o.validate = some (newValidationError o StrMissingSubKey)) ∧
    (o.pubnub.Config.SubscribeKey ≠ "" → o.DeviceIDForPush = "" →
      o.validate = some (newValidationError o StrMissingDeviceID)) ∧
    (o.pubnub.Config.SubscribeKey ≠ "" → o.DeviceIDForPush ≠ "" →
      o.PushType = PNPushTypeNone →
      o.validate = some (newValidationError o StrMissingPushType)) := by
  refine ⟨?_, ?_, ?_, ?_, ?_⟩
  · unfold listPushProvisionsRequestOpts.validate listPushProvisionsRequestOpts.config
    by_cases h1 : o.pubnub.Config.SubscribeKey = "" <;>
    by_cases h2 : o.DeviceIDForPush = "" <;>
    by_cases h3 : o.PushType = PNPushTypeNone <;> simp [h1, h2, h3]
  · intro h3
    unfold listPushProvisionsRequestOpts.validate listPushProvisionsRequestOpts.config
    by_cases h1 : o.pubnub.Config.SubscribeKey = "" <;>
    by_cases h2 : o.DeviceIDForPush = "" <;> simp [h1, h2, h3]
  · intro h1
    simp [listPushProvisionsRequestOpts.validate, listPushProvisionsRequestOpts.config, h1]
  · intro h1 h2
    simp [listPushProvisionsRequestOpts.validate, listPushProvisionsRequestOpts.config, h1, h2]
  · intro h1 h2 h3
    simp [listPushProvisionsRequestOpts.validate, listPushProvisionsRequestOpts.config, h1, h2,
      h3]

/-- Witness of C9: the push type "none" fails with the push-type message, a
device id with another push type passes. -/
theorem listPush_validate_spec_witness :
    (listPushFor "device-1" PNPushTypeNone).validate
      = some (PNError.validation StrMissingPushType) ∧
    (listPushFor "device-1" ⟨2⟩).validate = none :=
  ⟨(listPush_validate_spec (listPushFor "device-1" PNPushTypeNone)).2.2.2.2
      (by decide) (by decide) rfl,
   (listPush_validate_spec (listPushFor "device-1" ⟨2⟩)).1.2
      ⟨by decide, by decide, by decide⟩⟩

/-- C10, as stated, fails: two calls of `buildQuery` on the same `GrantOpts` at
clock readings 0 and 1 return queries with different `timestamp` values. -/
theorem buildQuery_depends_on_clock :
    (grantReadOnly.buildQuery 0).1 "timestamp" = some ["0"] ∧
    (grantReadOnly.buildQuery 1).1 "timestamp" = some ["1"] ∧
    (grantReadOnly.buildQuery 0).1 ≠ (grantReadOnly.buildQuery 1).1 := by
  refine ⟨rfl, rfl, ?_⟩
  intro h
  have := congrFun h "timestamp"
  revert this
  decide

/-- C10, amended: `buildPath` never fails and its path is determined by the
subscribe key alone; `buildQuery` is determined by the field values, the
configuration and the clock reading at the call: two calls on the same
`GrantOpts` at any two times return the same error and queries that agree on
every key other than `timestamp`, and on success the `timestamp` of each is the
decimal rendering of the clock reading of its own call. -/
theorem buildQuery_pure_up_to_timestamp (o : GrantOpts) (t1 t2 : Int) :
    (o.buildPath.2 = none ∧
      ∀ o2 : GrantOpts, o2.pubnub.Config.SubscribeKey = o.pubnub.Config.SubscribeKey →
        o2.buildPath = o.buildPath) ∧
    (o.buildQuery t1).2 = (o.buildQuery t2).2 ∧
    (∀ k : String, k ≠ "timestamp" → (o.buildQuery t1).1 k = (o.buildQuery t2).1 k) ∧
    ((o.buildQuery t1).2 = none →
      (o.buildQuery t1).1 "timestamp" = some [Itoa t1] ∧
      (o.buildQuery t2).1 "timestamp" = some [Itoa t2]) := by
  have he : (o.buildQuery t1).2 = (o.buildQuery t2).2 := by
    rw [buildQuery_err o t1, buildQuery_err o t2]
  refine ⟨⟨rfl, ?_⟩, he, ?_, ?_⟩
  · intro o2 h
    simp only [GrantOpts.buildPath, h]
  · intro k hk
    cases h1 : (o.buildQuery t1).2 with
    | none =>
      have h2 : (o.buildQuery t2).2 = none := by rw [← he, h1]
      rw [buildQuery_lookup o t1 h1 k, buildQuery_lookup o t2 h2 k, if_neg hk, if_neg hk]
    | some e =>
      have h1n : (o.buildQuery t1).2 ≠ none := by rw [h1]; simp
      have h2n : (o.buildQuery t2).2 ≠ none := by rw [← he]; exact h1n
      rw [buildQuery_fail_query o t1 h1n, buildQuery_fail_query o t2 h2n]
  · intro h1
    have h2 : (o.buildQuery t2).2 = none := by rw [← he, h1]
    rw [buildQuery_lookup o t1 h1 "timestamp", buildQuery_lookup o t2 h2 "timestamp"]
    simp

/-- Witness of the amended C10 on a grant with only `Read` set. -/
theorem buildQuery_pure_up_to_timestamp_witness :
    (grantReadOnly.buildQuery 0).2 = none ∧
    (grantReadOnly.buildQuery 0).1 "timestamp" = some [Itoa 0] ∧
    (grantReadOnly.buildQuery 1).1 "timestamp" = some [Itoa 1] ∧
    (grantReadOnly.buildQuery 0).1 "r" = (grantReadOnly.buildQuery 1).1 "r" :=
  ⟨rfl, ((buildQuery_pure_up_to_timestamp grantReadOnly 0 1).2.2.2 rfl).1,
   ((buildQuery_pure_up_to_timestamp grantReadOnly 0 1).2.2.2 rfl).2,
   (buildQuery_pure_up_to_timestamp grantReadOnly 0 1).2.2.1 "r" (by decide)⟩

/-! ### Helper lemmas on paths, joins and the response parsers -/

/-- The accumulating loop of `String.intercalate` on a non-empty rest. -/
theorem intercalate_go_comma (acc b : String) (rest : List String) :
    String.intercalate.go acc "," (b :: rest) = acc ++ "," ++ commaJoined (b :: rest) := by
  induction rest generalizing acc b with
  | nil => simp [String.intercalate.go, commaJoined]
  | cons c rest ih =>
    rw [String.intercalate.go, ih]
    simp only [commaJoined, String.append_assoc]

/-- `strings.Join` with a comma puts the elements in order, separated by
commas. -/
theorem Join_comma (xs : List String) : Join xs "," = commaJoined xs := by
  cases xs with
  | nil => rfl
  | cons a rest =>
    cases rest with
    | nil => rfl
    | cons b rest =>
      simp only [Join, String.intercalate, intercalate_go_comma, commaJoined]

/-- Percent-encoding leaves a sequence of unreserved characters as it is. -/
theorem escapeChars_unreserved (cs : List Char)
    (h : ∀ c ∈ cs, isUnreservedByte c.toNat = true) : escapeChars cs = cs := by
  induction cs with
  | nil => rfl
  | cons c cs ih =>
    have hc : isUnreservedByte c.toNat = true := h c (List.mem_cons_self c cs)
    have hlt : c.toNat < 0x80 := by
      simp only [isUnreservedByte, Bool.or_eq_true, Bool.and_eq_true, decide_eq_true_eq,
        beq_iff_eq] at hc
      omega
    have hb : utf8Bytes c = [c.toNat] := by
      simp only [utf8Bytes, if_pos hlt]
    rw [escapeChars, hb, ih (fun d hd => h d (List.mem_cons_of_mem c hd))]
    simp only [escapeBytes, hc, if_true, Char.ofNat_toNat, List.append_nil, List.singleton_append]

/-- The string loop of the push-provision parser succeeds on strings. -/
theorem stringsOf_strings (strs : List String) :
    stringsOf (strs.map JSONValue.string) = some strs := by
  induction strs with
  | nil => rfl
  | cons a rest ih => simp only [List.map_cons, stringsOf, JSONValue.asString?, ih]

/-- The three outcomes of `newGrantResponse`: a panic, a parsing error with the
nil response, or the empty response without error. -/
theorem newGrantResponse_cases (U : Decoder) (body : Bytes) :
    (∃ msg, newGrantResponse U body = .panic msg) ∨
    (∃ e, newGrantResponse U body = .ret (none, some e)) ∨
    newGrantResponse U body = .ret (some {}, none) := by
  unfold newGrantResponse
  cases hU : U body with
  | error err =>
    right; left
    exact ⟨_, rfl⟩
  | ok value =>
    simp only
    cases hp : (mapIndex (value.asObject?.getD []) "payload").bind JSONValue.asObject? with
    | none => left; exact ⟨_, rfl⟩
    | some parsedPayload =>
      right; right
      simp only
      cases hc : mapIndex parsedPayload "channel" <;> rfl

/-- One iteration of the loop of `newGrantResponse` leaves `Ttl` as it was or
sets it to 0. -/
theorem grantAuthStep_ttl (state : GrantResponse × List (String × PNAccessManagerKeyData))
    (entry : String × JSONValue) :
    (grantAuthStep state entry).1.Ttl = state.1.Ttl ∨ (grantAuthStep state entry).1.Ttl = 0 := by
  unfold grantAuthStep
  simp only
  cases mapIndex (entry.2.asObject?.getD []) "ttl" with
  | none => left; rfl
  | some val => right; rfl

/-- The loop of `newGrantResponse` leaves `Ttl` as it was or sets it to 0. -/
theorem grantAuthLoop_ttl (auths : List (String × JSONValue))
    (state : GrantResponse × List (String × PNAccessManagerKeyData)) :
    (grantAuthLoop auths state).1.Ttl = state.1.Ttl ∨ (grantAuthLoop auths state).1.Ttl = 0 := by
  unfold grantAuthLoop
  induction auths generalizing state with
  | nil => left; rfl
  | cons entry rest ih =>
    rw [List.foldl_cons]
    rcases ih (grantAuthStep state entry) with h | h
    · rcases grantAuthStep_ttl state entry with h2 | h2
      · left; rw [h, h2]
      · right; rw [h, h2]
    · right; exact h

/-! ## Claims on paths, response parsing, clients and operation types -/

/-- C11, as stated, fails: for the subscribe key "a/b" both paths hold the key
verbatim, not its percent-encoding "a%2Fb". -/
theorem buildPath_subkey_not_encoded :
    UrlEncode "a/b" = "a%2Fb" ∧
    (GrantOpts.buildPath { pubnub := { Config := slashKeyConfig } }).1
      = "/v1/auth/grant/sub-key/a/b" ∧
    (GrantOpts.buildPath { pubnub := { Config := slashKeyConfig } }).1
      ≠ "/v1/auth/grant/sub-key/" ++ UrlEncode "a/b" ∧
    (listPushProvisionsRequestOpts.buildPath
        { pubnub := { Config := slashKeyConfig }, PushType := ⟨2⟩, DeviceIDForPush := "d 1" }).1
      ≠ "/v1/push/sub-key/" ++ UrlEncode "a/b" ++ "/devices/" ++ UrlEncode "d 1" := by
  decide

/-- C11, amended: `GrantOpts.buildPath` returns "/v1/auth/grant/sub-key/"
followed by the subscribe key as it is, and
`listPushProvisionsRequestOpts.buildPath` returns "/v1/push/sub-key/" followed
by the subscribe key as it is, then "/devices/", then the percent-encoding of
the device id; neither returns an error; when the subscribe key consists of
unreserved characters only, it equals its percent-encoding. -/
theorem buildPath_spec (g : GrantOpts) (o : listPushProvisionsRequestOpts) :
    g.buildPath = ("/v1/auth/grant/sub-key/" ++ g.pubnub.Config.SubscribeKey, none) ∧
    o.buildPath = ("/v1/push/sub-key/" ++ o.pubnub.Config.SubscribeKey ++ "/devices/"
      ++ UrlEncode o.DeviceIDForPush, none) ∧
    ((∀ c ∈ g.pubnub.Config.SubscribeKey.toList, isUnreservedByte c.toNat = true) →
      g.buildPath
        = ("/v1/auth/grant/sub-key/" ++ UrlEncode g.pubnub.Config.SubscribeKey, none)) ∧
    ((∀ c ∈ o.pubnub.Config.SubscribeKey.toList, isUnreservedByte c.toNat = true) →
      o.buildPath = ("/v1/push/sub-key/" ++ UrlEncode o.pubnub.Config.SubscribeKey
        ++ "/devices/" ++ UrlEncode o.DeviceIDForPush, none)) := by
  have henc : ∀ s : String, (∀ c ∈ s.toList, isUnreservedByte c.toNat = true) →
      UrlEncode s = s := by
    intro s hs
    cases s with
    | mk d =>
      show String.mk (escapeChars d) = String.mk d
      rw [escapeChars_unreserved d hs]
  refine ⟨rfl, rfl, ?_, ?_⟩
  · intro h
    rw [henc _ h]
    rfl
  · intro h
    rw [henc _ h]
    rfl

/-- Witness of the amended C11: the key "sub" is unreserved, the device id
"d 1" is percent-encoded. -/
theorem buildPath_spec_witness :
    grantReadOnly.buildPath = ("/v1/auth/grant/sub-key/sub", none) ∧
    (listPushFor "d 1" ⟨2⟩).buildPath = ("/v1/push/sub-key/sub/devices/d%201", none) ∧
    grantReadOnly.buildPath = ("/v1/auth/grant/sub-key/" ++ UrlEncode "sub", none) :=
  ⟨(buildPath_spec grantReadOnly (listPushFor "d 1" ⟨2⟩)).1,
   (buildPath_spec grantReadOnly (listPushFor "d 1" ⟨2⟩)).2.1,
   (buildPath_spec grantReadOnly (listPushFor "d 1" ⟨2⟩)).2.2.1 (by decide)⟩

/-- C12: on the well-formed body `grantBody` (channel "ch", auth key "k" with
r "1", w "1", m "0", ttl 5) `newGrantResponse` returns no error and the empty
`GrantResponse`, whose `Channels` and `ChannelGroups` hold nothing, although
its loop has built the key data of "k" (read and write enabled, manage
not); on every body the function panics, returns a parsing error with the nil
response, or returns the empty `GrantResponse`. -/
theorem newGrantResponse_sample_discards_map :
    sampleUnmarshal grantBody = .ok grantValue ∧
    newGrantResponse sampleUnmarshal grantBody = .ret (some {}, none) ∧
    ({} : GrantResponse).Channels = [] ∧
    ({} : GrantResponse).ChannelGroups = [] ∧
    (grantAuthLoop grantAuths ({}, [])).2
      = [("k", { ReadEnabled := true, WriteEnabled := true, ManageEnabled := false })] ∧
    (∀ (U : Decoder) (body : Bytes),
      (∃ msg, newGrantResponse U body = .panic msg) ∨
      (∃ e, newGrantResponse U body = .ret (none, some e)) ∨
      newGrantResponse U body = .ret (some {}, none)) := by
  refine ⟨rfl, by decide, rfl, rfl, by decide, ?_⟩
  intro U body
  exact newGrantResponse_cases U body

/-- C13, as stated, fails: on bodies that are valid JSON of the wrong shape the
parsers return no parsing error: `newListPushProvisionsRequestResponse`
returns an empty response without error on an object and panics on `[1]`,
and `newGrantResponse` panics on `[]` and on an object without payload. -/
theorem parsers_on_wrong_shape :
    newListPushProvisionsRequestResponse sampleUnmarshal objectBody statusOK
      = .ret (some { Channels := [] }, statusOK, none) ∧
    newListPushProvisionsRequestResponse sampleUnmarshal numberArrayBody statusOK
      = .panic "interface conversion: interface {} is not string" ∧
    newGrantResponse sampleUnmarshal emptyArrayBody
      = .panic "interface conversion: interface {} is not map[string]interface {}" ∧
    newGrantResponse sampleUnmarshal objectBody
      = .panic "interface conversion: interface {} is not map[string]interface {}" := by
  refine ⟨by decide, by decide, by decide, by decide⟩

/-- C13, amended: for every body that is valid JSON but is not a JSON array,
`newListPushProvisionsRequestResponse` returns no error: it passes the status
through and returns a response whose `Channels` is empty. -/
theorem newListPush_non_array (U : Decoder) (body : Bytes) (v : JSONValue)
    (status : StatusResponse) (h : U body = .ok v)
    (hv : ∀ xs : List JSONValue, v ≠ JSONValue.array xs) :
    newListPushProvisionsRequestResponse U body status
      = .ret (some { Channels := [] }, status, none) := by
  have ha : v.asArray? = none := by
    cases v with
    | array xs => exact absurd rfl (hv xs)
    | null => rfl
    | bool b => rfl
    | number q => rfl
    | string s => rfl
    | object kvs => rfl
  simp only [newListPushProvisionsRequestResponse, h, ha]

/-- Witness of the amended C13 on a body that is an object. -/
theorem newListPush_non_array_witness :
    sampleUnmarshal objectBody = .ok (.object [("a", .number 1)]) ∧
    newListPushProvisionsRequestResponse sampleUnmarshal objectBody statusOK
      = .ret (some { Channels := [] }, statusOK, none) :=
  ⟨rfl, newListPush_non_array sampleUnmarshal objectBody (.object [("a", .number 1)]) statusOK
    rfl (fun _ hx => by cases hx)⟩

/-- C14: for every body that decodes to a JSON array of strings,
`newListPushProvisionsRequestResponse` returns no error, the given status
unchanged and `Channels` equal to that array: same length, same strings, same
order; the empty array gives the empty list. -/
theorem newListPush_array_of_strings (U : Decoder) (body : Bytes) (strs : List String)
    (status : StatusResponse) (h : U body = .ok (.array (strs.map JSONValue.string))) :
    newListPushProvisionsRequestResponse U body status
      = .ret (some { Channels := strs }, status, none) ∧
    (strs = [] → newListPushProvisionsRequestResponse U body status
      = .ret (some { Channels := [] }, status, none)) := by
  have hmain : newListPushProvisionsRequestResponse U body status
      = .ret (some { Channels := strs }, status, none) := by
    simp only [newListPushProvisionsRequestResponse, h, JSONValue.asArray?, stringsOf_strings]
  refine ⟨hmain, ?_⟩
  intro hs
  rw [hmain, hs]

/-- Witness of C14 on the bodies `["a","b"]` and `[]`. -/
theorem newListPush_array_of_strings_witness :
    sampleUnmarshal listBody = .ok (.array (["a", "b"].map JSONValue.string)) ∧
    newListPushProvisionsRequestResponse sampleUnmarshal listBody statusOK
      = .ret (some { Channels := ["a", "b"] }, statusOK, none) ∧
    newListPushProvisionsRequestResponse sampleUnmarshal emptyArrayBody statusOK
      = .ret (some { Channels := [] }, statusOK, none) :=
  ⟨rfl, (newListPush_array_of_strings sampleUnmarshal listBody ["a", "b"] statusOK rfl).1,
   (newListPush_array_of_strings sampleUnmarshal emptyArrayBody [] statusOK rfl).2 rfl⟩

/-- C15: whenever `buildQuery` succeeds, each of the parameters `auth`,
`channel` and `channel-group` is present exactly when its list (`AuthKeys`,
`Channels`, `Groups`) is non-empty, and its single value is then the elements
of the list joined with "," in their original order. -/
theorem buildQuery_lists (o : GrantOpts) (now : Int) (h : (o.buildQuery now).2 = none) :
    (((o.buildQuery now).1 "auth" ≠ none ↔ o.AuthKeys ≠ []) ∧
      (o.AuthKeys ≠ [] → (o.buildQuery now).1 "auth" = some [commaJoined o.AuthKeys])) ∧
    (((o.buildQuery now).1 "channel" ≠ none ↔ o.Channels ≠ []) ∧
      (o.Channels ≠ [] → (o.buildQuery now).1 "channel" = some [commaJoined o.Channels])) ∧
    (((o.buildQuery now).1 "channel-group" ≠ none ↔ o.Groups ≠ []) ∧
      (o.Groups ≠ [] →
        (o.buildQuery now).1 "channel-group" = some [commaJoined o.Groups])) := by
  have hlen : ∀ xs : List String, xs.length > 0 ↔ xs ≠ [] := by
    intro xs
    cases xs <;> simp
  refine ⟨?_, ?_, ?_⟩
  · rw [buildQuery_lookup o now h "auth"]
    by_cases hk : o.AuthKeys = []
    · simp [hk]
    · simp [hk, hlen, Join_comma]
  · rw [buildQuery_lookup o now h "channel"]
    by_cases hk : o.Channels = []
    · simp [hk]
    · simp [hk, hlen, Join_comma]
  · rw [buildQuery_lookup o now h "channel-group"]
    by_cases hk : o.Groups = []
    · simp [hk]
    · simp [hk, hlen, Join_comma]

/-- Witness of C15: two auth keys give auth=k1,k2, one channel gives
channel=ch, no group gives no channel-group parameter. -/
theorem buildQuery_lists_witness :
    (grantTwoKeys.buildQuery 0).2 = none ∧
    (grantTwoKeys.buildQuery 0).1 "auth" = some ["k1,k2"] ∧
    (grantTwoKeys.buildQuery 0).1 "channel" = some ["ch"] ∧
    ¬ ((grantTwoKeys.buildQuery 0).1 "channel-group" ≠ none) :=
  ⟨rfl, (buildQuery_lists grantTwoKeys 0 rfl).1.2 (by decide),
   (buildQuery_lists grantTwoKeys 0 rfl).2.1.2 (by decide),
   fun hne => (buildQuery_lists grantTwoKeys 0 rfl).2.2.1.1 hne rfl⟩

/-- C16: for every body on which the decoder fails (a byte string that is not
valid JSON), `newGrantResponse` and `newListPushProvisionsRequestResponse`
return the nil response and a response-parsing error that carries exactly the
bytes of the body and the decoding error; the status is passed through. -/
theorem parsers_on_invalid_json (U : Decoder) (body : Bytes) (err : UnmarshalError)
    (status : StatusResponse) (h : U body = .error err) :
    newGrantResponse U body
      = .ret (none, some (PNError.responseParsing "Error unmarshalling response" body err)) ∧
    newListPushProvisionsRequestResponse U body status
      = .ret (none, status,
          some (PNError.responseParsing "Error unmarshalling response" body err)) := by
  constructor
  · simp only [newGrantResponse, h, emptyGrantResponse, NewResponseParsingError]
  · simp only [newListPushProvisionsRequestResponse, h,
      emptyListPushProvisionsRequestResponse, NewResponseParsingError]

/-- Witness of C16 on the body `nope`. -/
theorem parsers_on_invalid_json_witness :
    sampleUnmarshal notJsonBody = .error { msg := "invalid character", Offset := 1 } ∧
    newGrantResponse sampleUnmarshal notJsonBody
      = .ret (none, some (PNError.responseParsing "Error unmarshalling response"
          [110, 111, 112, 101] { msg := "invalid character", Offset := 1 })) :=
  ⟨rfl, (parsers_on_invalid_json sampleUnmarshal notJsonBody
    { msg := "invalid character", Offset := 1 } statusOK rfl).1⟩

/-- C17: on the body `grantBody`, whose only auth entry has ttl 5,
`newGrantResponse` returns a `GrantResponse` whose `Ttl` is 0: the assertion
`val.(int)` fails on the decoded number, so the loop leaves 0 in
`grantResp.Ttl` on every auths object, and the function returns `resp`, not
`grantResp`. -/
theorem newGrantResponse_sample_ttl_zero :
    mapIndex (((mapIndex grantAuths "k").bind JSONValue.asObject?).getD []) "ttl"
      = some (JSONValue.number 5) ∧
    (grantAuthLoop grantAuths ({}, [])).1.Ttl = 0 ∧
    (∃ r : GrantResponse,
      newGrantResponse sampleUnmarshal grantBody = .ret (some r, none) ∧ r.Ttl = 0 ∧
        r.Channels = []) ∧
    (∀ auths : List (String × JSONValue), (grantAuthLoop auths ({}, [])).1.Ttl = 0) := by
  refine ⟨rfl, by decide, ⟨{}, by decide, rfl, rfl⟩, ?_⟩
  intro auths
  rcases grantAuthLoop_ttl auths ({}, []) with h | h
  · rw [h]
  · exact h

/-- C18: on a `PubNub` whose client is unset, `GetClient` stores a client
built from `ConnectTimeout` and `NonSubscribeRequestTimeout` and returns it;
a later `GetClient` returns that stored client and leaves the state unchanged;
after `SetClient` with a non-nil client, `GetClient` returns that client;
`GetClient` never changes `subscribeClient`, and `GetSubscribeClient`, which
builds from `ConnectTimeout` and `SubscribeRequestTimeout`, never changes
`client`. -/
theorem GetClient_lazy (pn : PubNub) (c : HttpClient) :
    (pn.client = none →
      pn.GetClient.1 = some (NewHttpClient pn.Config.ConnectTimeout
        pn.Config.NonSubscribeRequestTimeout) ∧
      pn.GetClient.2.client = pn.GetClient.1) ∧
    pn.GetClient.2.GetClient = (pn.GetClient.1, pn.GetClient.2) ∧
    (∀ n : Nat, ((fun p : PubNub => p.GetClient.2)^[n] pn.GetClient.2).GetClient
      = (pn.GetClient.1, pn.GetClient.2)) ∧
    (pn.client ≠ none → pn.GetClient = (pn.client, pn)) ∧
    (pn.SetClient (some c)).GetClient = (some c, pn.SetClient (some c)) ∧
    pn.GetClient.2.subscribeClient = pn.subscribeClient ∧
    pn.GetClient.2.Config = pn.Config ∧
    pn.GetSubscribeClient.2.client = pn.client ∧
    pn.GetSubscribeClient.2.Config = pn.Config ∧
    (pn.subscribeClient = none →
      pn.GetSubscribeClient.1 = some (NewHttpClient pn.Config.ConnectTimeout
        pn.Config.SubscribeRequestTimeout) ∧
      pn.GetSubscribeClient.2.subscribeClient = pn.GetSubscribeClient.1) ∧
    pn.GetSubscribeClient.2.GetSubscribeClient
      = (pn.GetSubscribeClient.1, pn.GetSubscribeClient.2) := by
  have hfix : pn.GetClient.2.GetClient = (pn.GetClient.1, pn.GetClient.2) := by
    by_cases h : pn.client = none <;> simp [PubNub.GetClient, h]
  refine ⟨?_, hfix, ?_, ?_, ?_, ?_, ?_, ?_, ?_, ?_, ?_⟩
  · intro h
    simp [PubNub.GetClient, h]
  · intro n
    have hstate : (fun p : PubNub => p.GetClient.2) pn.GetClient.2 = pn.GetClient.2 := by
      show pn.GetClient.2.GetClient.2 = pn.GetClient.2
      rw [hfix]
    rw [Function.iterate_fixed hstate n]
    exact hfix
  · intro h
    simp [PubNub.GetClient, h]
  · simp [PubNub.GetClient, PubNub.SetClient]
  · by_cases h : pn.client = none <;> simp [PubNub.GetClient, h]
  · by_cases h : pn.client = none <;> simp [PubNub.GetClient, h]
  · by_cases h : pn.subscribeClient = none <;> simp [PubNub.GetSubscribeClient, h]
  · by_cases h : pn.subscribeClient = none <;> simp [PubNub.GetSubscribeClient, h]
  · intro h
    simp [PubNub.GetSubscribeClient, h]
  · by_cases h : pn.subscribeClient = none <;> simp [PubNub.GetSubscribeClient, h]

/-- Witness of C18 on a fresh `PubNub` with timeouts 5, 10 and 310. -/
theorem GetClient_lazy_witness :
    timedPubNub.client = none ∧
    timedPubNub.GetClient.1 = some { connectTimeout := 5, requestTimeout := 10 } ∧
    timedPubNub.GetClient.2.client = timedPubNub.GetClient.1 ∧
    timedPubNub.GetSubscribeClient.1 = some { connectTimeout := 5, requestTimeout := 310 } :=
  ⟨rfl, ((GetClient_lazy timedPubNub ⟨0, 0⟩).1 rfl).1, ((GetClient_lazy timedPubNub ⟨0, 0⟩).1 rfl).2,
   ((GetClient_lazy timedPubNub ⟨0, 0⟩).2.2.2.2.2.2.2.2.2.1 rfl).1⟩

/-- C19: `GrantRequestWithContext` returns the nil response whatever
`executeRequest` yields, with the error of `executeRequest`, which is nil on
success; `GrantRequest` returns the error of a failed execution with the nil
response and, on a successful execution, what `newGrantResponse` returns on
the raw body. -/
theorem GrantRequestWithContext_discards (U : Decoder)
    (executeRequest : GrantOpts → Bytes × Option PNError)
    (ctx : Option Context) (pn : PubNub) (opts : GrantOpts) :
    (GrantRequestWithContext executeRequest ctx pn opts).1 = none ∧
    (GrantRequestWithContext executeRequest ctx pn opts).2
      = (executeRequest { opts with pubnub := pn, ctx := ctx }).2 ∧
    ((executeRequest { opts with pubnub := pn, ctx := ctx }).2 = none →
      GrantRequestWithContext executeRequest ctx pn opts = (none, none)) ∧
    ((executeRequest { opts with pubnub := pn }).2 = none →
      GrantRequest U executeRequest pn opts
        = newGrantResponse U (executeRequest { opts with pubnub := pn }).1) ∧
    ((executeRequest { opts with pubnub := pn }).2 ≠ none →
      GrantRequest U executeRequest pn opts
        = .ret (none, (executeRequest { opts with pubnub := pn }).2)) := by
  refine ⟨?_, ?_, ?_, ?_, ?_⟩
  · unfold GrantRequestWithContext
    simp only [emptyGrantResponse]
    split <;> rfl
  · unfold GrantRequestWithContext
    simp only
    split
    · rfl
    · rename_i hn
      simp only [ne_eq, not_not] at hn
      exact hn.symm
  · intro h
    unfold GrantRequestWithContext
    simp only [emptyGrantResponse]
    rw [if_neg (by simpa using h)]
  · intro h
    unfold GrantRequest
    simp only
    rw [if_neg (by simpa using h)]
  · intro h
    unfold GrantRequest
    simp only [emptyGrantResponse]
    rw [if_pos h]

/-- Witness of C19: a successful execution with the body `grantBody`. -/
theorem GrantRequestWithContext_discards_witness :
    (executeGrantOK { grantReadOnly with pubnub := timedPubNub, ctx := some ⟨7⟩ }).2 = none ∧
    GrantRequestWithContext executeGrantOK (some ⟨7⟩) timedPubNub grantReadOnly = (none, none) ∧
    GrantRequest sampleUnmarshal executeGrantOK timedPubNub grantReadOnly
      = newGrantResponse sampleUnmarshal grantBody :=
  ⟨rfl,
   (GrantRequestWithContext_discards sampleUnmarshal executeGrantOK (some ⟨7⟩) timedPubNub
      grantReadOnly).2.2.1 rfl,
   (GrantRequestWithContext_discards sampleUnmarshal executeGrantOK (some ⟨7⟩) timedPubNub
      grantReadOnly).2.2.2.1 rfl⟩

/-- C20: `GrantOpts.operationType` returns the access-manager-grant tag, while
`listPushProvisionsRequestOpts.operationType` returns the remove-channel-group
tag `PNRemoveGroupOperation` for every field value, as on the listing for the
device "device-1". -/
theorem operationType_values :
    (∀ g : GrantOpts, g.operationType = OperationType.PNAccessManagerGrant) ∧
    (∀ o : listPushProvisionsRequestOpts,
      o.operationType = OperationType.PNRemoveGroupOperation) ∧
    (listPushFor "device-1" ⟨2⟩).operationType = OperationType.PNRemoveGroupOperation :=
  ⟨fun _ => rfl, fun _ => rfl, rfl⟩

end pubnub
